import Mathlib

/-!
Formal model of the "carga masiva" (bulk load) service for productos.

The definitions below are a shallow embedding of the Python service:
  - `aplanar_nombre_columna` models `ICargaMasivaService.aplanar_nombre_columna`
    (strip, lower, NFKD-decompose and drop combining marks, collapse runs of
    space/period/hyphen to one underscore, collapse underscore runs, strip
    underscores).  Strings are lists of characters; the character-level
    primitives (`pyLowerChar`, `nfkdChar`, `combining`, whitespace classes)
    model the Python/Unicode behaviour on a representative character domain
    (ASCII plus the Spanish accented letters used by the service) and act as
    the identity elsewhere.
  - `validar_filas_preview` models `CargaMasivaProductoService.validar_filas_preview`.
  - `procesar_archivo` models `CargaMasivaProductoService.procesar_archivo`;
    the pandas parse outcome is passed in as an `Except` value and the two
    persistence calls (`bulk_insert_mappings`, `commit`) are given optional
    exception texts, so every caught-exception path of the source is reachable.
-/

namespace CargaMasiva

/-! ### Character-level primitives (model of Python `str` operations) -/

/-- Whitespace characters stripped by Python `str.strip()`. -/
def wsChars : List Char := [' ', '\t', '\n', '\r', '\x0b', '\x0c']

def isWS (c : Char) : Bool := wsChars.contains c

/-- The character class of the regex `[ .\x2d]` used by `aplanar_nombre_columna`. -/
def spChars : List Char := [' ', '.', '-']

def isSP (c : Char) : Bool := spChars.contains c

def isUnd (c : Char) : Bool := c = '_'

/-- Uppercase/lowercase pairs modelling Python `str.lower` / `str.upper`
on the character domain used by the service. -/
def lowerPairs : List (Char × Char) :=
  [('A', 'a'), ('B', 'b'), ('C', 'c'), ('D', 'd'), ('E', 'e'), ('F', 'f'),
   ('G', 'g'), ('H', 'h'), ('I', 'i'), ('J', 'j'), ('K', 'k'), ('L', 'l'),
   ('M', 'm'), ('N', 'n'), ('O', 'o'), ('P', 'p'), ('Q', 'q'), ('R', 'r'),
   ('S', 's'), ('T', 't'), ('U', 'u'), ('V', 'v'), ('W', 'w'), ('X', 'x'),
   ('Y', 'y'), ('Z', 'z'),
   ('Á', 'á'), ('É', 'é'), ('Í', 'í'), ('Ó', 'ó'), ('Ú', 'ú'),
   ('Ñ', 'ñ'), ('Ü', 'ü')]

def pyLowerChar (c : Char) : Char :=
  match lowerPairs.find? (fun p => p.1 = c) with
  | some p => p.2
  | none => c

def upperPairs : List (Char × Char) := lowerPairs.map (fun p => (p.2, p.1))

def pyUpperChar (c : Char) : Char :=
  match upperPairs.find? (fun p => p.1 = c) with
  | some p => p.2
  | none => c

/-- Combining marks produced by NFKD on the modelled domain. -/
def combAcute : Char := '́'

def combTilde : Char := '̃'

def combDia : Char := '̈'

def combiningChars : List Char := [combAcute, combTilde, combDia]

def combining (c : Char) : Bool := combiningChars.contains c

/-- NFKD decompositions on the modelled domain (identity elsewhere). -/
def decompPairs : List (Char × List Char) :=
  [('á', ['a', combAcute]), ('é', ['e', combAcute]), ('í', ['i', combAcute]),
   ('ó', ['o', combAcute]), ('ú', ['u', combAcute]),
   ('ñ', ['n', combTilde]), ('ü', ['u', combDia]),
   ('Á', ['A', combAcute]), ('É', ['E', combAcute]), ('Í', ['I', combAcute]),
   ('Ó', ['O', combAcute]), ('Ú', ['U', combAcute]),
   ('Ñ', ['N', combTilde]), ('Ü', ['U', combDia]),
   ('\xa0', [' '])]

def nfkdChar (c : Char) : List Char :=
  match decompPairs.find? (fun p => p.1 = c) with
  | some p => p.2
  | none => [c]

/-! ### List-of-characters combinators -/

/-- Drop the characters satisfying `p` from the end of the list. -/
def stripEnd (p : Char → Bool) (l : List Char) : List Char :=
  (l.reverse.dropWhile p).reverse

/-- Drop the characters satisfying `p` from both ends (Python `strip`). -/
def stripBoth (p : Char → Bool) (l : List Char) : List Char :=
  stripEnd p (l.dropWhile p)

/-- State machine implementing `re.sub(cls+, r, s)`: each maximal run of
characters satisfying `p` is replaced by the single character `r`.  The
boolean argument records whether the previous character belonged to a run. -/
def collapseRuns (p : Char → Bool) (r : Char) : Bool → List Char → List Char
  | _, [] => []
  | inRun, c :: rest =>
    if p c then
      if inRun then collapseRuns p r true rest
      else r :: collapseRuns p r true rest
    else c :: collapseRuns p r false rest

/-! ### `aplanar_nombre_columna` (base service) -/

/-- `ICargaMasivaService.aplanar_nombre_columna`: strip whitespace, lowercase,
NFKD-normalize dropping combining marks, collapse runs of space/period/hyphen
to `_`, collapse `_` runs, strip leading/trailing `_`. -/
def aplanar_nombre_columna (l : List Char) : List Char :=
  let l1 := stripBoth isWS l
  let l2 := l1.map pyLowerChar
  let l3 := (l2.flatMap nfkdChar).filter (fun c => !combining c)
  let l4 := collapseRuns isSP '_' false l3
  let l5 := collapseRuns isUnd '_' false l4
  stripBoth isUnd l5

/-! ### String-level helpers -/

def pyStrip (s : String) : String := String.mk (stripBoth isWS s.toList)

def pyLowerStr (s : String) : String := String.mk (s.toList.map pyLowerChar)

/-- Python `x.upper()` (no strip). -/
def pyUpperStr (s : String) : String := String.mk (s.toList.map pyUpperChar)

/-- Python `str(x).strip().upper()` (also `safe_upper` on string values). -/
def pyStripUpper (s : String) : String :=
  String.mk ((stripBoth isWS s.toList).map pyUpperChar)

/-- Python `str(x).strip().lower()`. -/
def pyStripLower (s : String) : String :=
  String.mk ((stripBoth isWS s.toList).map pyLowerChar)

def aplanarStr (s : String) : String := String.mk (aplanar_nombre_columna s.toList)

def pyTruthy (s : String) : Bool := s != ""

/-! ### Numeric parsing (model of Python `float` / `int(float(.))`) -/

def digitVal (c : Char) : Nat := c.toNat - '0'.toNat

/-- Consume a maximal digit run, returning (value, number of digits, rest). -/
def takeDigits (acc n : Nat) : List Char → Nat × Nat × List Char
  | [] => (acc, n, [])
  | c :: rest =>
    if c.isDigit then takeDigits (acc * 10 + digitVal c) (n + 1) rest
    else (acc, n, c :: rest)

def ratSign (neg : Bool) (q : ℚ) : ℚ := if neg then -q else q

/-- Model of Python `float(s)` on decimal literals: optional surrounding
whitespace, optional sign, digits with an optional fractional part.  `none`
models a raised `ValueError`.  The value `ip.fp` is the exact rational
`(ip·10^f + fp) / 10^f` (built with `mkRat` so that it is kernel-computable). -/
def pyFloat? (s : String) : Option ℚ :=
  let l := stripBoth isWS s.toList
  let (neg, l1) : Bool × List Char :=
    match l with
    | '-' :: r => (true, r)
    | '+' :: r => (false, r)
    | r => (false, r)
  let (ip, nInt, rest) := takeDigits 0 0 l1
  match rest with
  | [] => if 0 < nInt then some (ratSign neg (mkRat (ip : Int) 1)) else none
  | '.' :: r =>
    let (fp, nFrac, rest2) := takeDigits 0 0 r
    if rest2 = [] ∧ 0 < nInt + nFrac then
      some (ratSign neg (mkRat ((ip * 10 ^ nFrac + fp : Nat) : Int) (10 ^ nFrac)))
    else none
  | _ => none

/-- Python `int(q)` for a finite float value: truncation toward zero. -/
def pyTrunc (q : ℚ) : Int := q.num.tdiv (q.den : Int)

/-- Model of Python `int(float(str(s)))`. -/
def pyInt? (s : String) : Option Int := (pyFloat? s).map pyTrunc

/-! ### Reference data and precache (`_precache_data`) -/

/-- A `categorias` database record (the fields read by the service). -/
structure Categoria where
  id : Nat
  nombre : String
  estado : Nat
deriving DecidableEq, Repr

/-- A `productos` database record (the fields read by the service). -/
structure ProductoRow where
  codigo : String
  estado : Nat
deriving DecidableEq, Repr

/-- Python `dict` lookup for a dict built by successive insertion from an
association list: the LAST binding of a key wins. -/
def dictFind? {α : Type} (m : List (String × α)) (k : String) : Option α :=
  (m.reverse.find? (fun p => p.1 = k)).map (fun p => p.2)

/-- `self.categorias_map`: active categories only, keys uppercased. -/
def precache_categorias (cats : List Categoria) : List (String × Nat) :=
  (cats.filter (fun c => c.estado == 1)).map (fun c => (pyUpperStr c.nombre, c.id))

/-- `self.codigos_existentes`: codes of active products, nonempty ones only,
stored verbatim (the source applies no case normalization here). -/
def precache_codigos (prods : List ProductoRow) : List String :=
  ((prods.filter (fun p => p.estado == 1)).map (fun p => p.codigo)).filter
    (fun c => c != "")

/-! ### Rows and column normalization -/

/-- A parsed file row: an association list from column name to cell text
(after `df.fillna("")` every cell is a string). -/
abbrev Fila := List (String × String)

def rowGet (row : Fila) (k : String) : String := (dictFind? row k).getD ""

/-- `_get_column_map`. -/
def column_map : List (String × String) :=
  [("CÓDIGO", "codigo"), ("CODIGO", "codigo"),
   ("NOMBRE", "nombre"), ("NOMBRE PRODUCTO", "nombre"),
   ("DESCRIPCIÓN", "descripcion"), ("DESCRIPCION", "descripcion"),
   ("CATEGORÍA", "categoria"), ("CATEGORIA", "categoria"),
   ("PRECIO", "precio"), ("PRECIO UNITARIO", "precio"),
   ("STOCK", "stock"), ("STOCK INICIAL", "stock")]

/-- `_normalizar_columnas`, per header:
`column_map.get(c.strip().upper(), c.strip().lower())`. -/
def normalizar_columna (c : String) : String :=
  match column_map.find? (fun p => p.1 = pyStripUpper c) with
  | some p => p.2
  | none => pyStripLower c

/-! ### Commit pass (`procesar_archivo`) -/

/-- Row marker of an error/preview entry: a row number, the string `"N/A"`
(synthetic errors), or the string `"-"` (valid preview rows). -/
inductive Marker where
  | num (n : Nat)
  | na
  | dash
deriving DecidableEq, Repr

structure ErrEntry where
  fila : Marker
  msg : String
deriving DecidableEq, Repr

/-- An entry of `productos_a_crear`. -/
structure ProductoNew where
  codigo : String
  nombre : String
  descripcion : Option String
  categoria_id : Nat
  precio : ℚ
  stock : Int
  estado : Nat
deriving DecidableEq, Repr

/-- One iteration of the commit loop body: either a row error or a product to
create, together with the updated `codigos_en_archivo` set (`seen`). -/
def commit_row (ex : List String) (cm : List (String × Nat)) (seen : List String)
    (row : Fila) (idx : Nat) : List String × (ErrEntry ⊕ ProductoNew) :=
  let codigo := pyStripUpper (rowGet row "codigo")
  let nombre := pyStrip (rowGet row "nombre")
  let descripcion :=
    if pyStrip (rowGet row "descripcion") = "" then none
    else some (pyStrip (rowGet row "descripcion"))
  let categoria_nombre := pyStripUpper (rowGet row "categoria")
  let categoria_id := (dictFind? cm categoria_nombre).getD 0
  let precioRaw := rowGet row "precio"
  let stockRaw := rowGet row "stock"
  if codigo = "" then
    (seen, Sum.inl ⟨Marker.num idx, "CÓDIGO es requerido."⟩)
  else if codigo ∈ ex then
    (seen, Sum.inl ⟨Marker.num idx, "CÓDIGO '" ++ codigo ++ "' ya existe en BD."⟩)
  else if codigo ∈ seen then
    (seen, Sum.inl ⟨Marker.num idx, "CÓDIGO '" ++ codigo ++ "' duplicado en archivo."⟩)
  else
    let seen' := codigo :: seen
    if nombre = "" then
      (seen', Sum.inl ⟨Marker.num idx, "NOMBRE es requerido."⟩)
    else if categoria_id = 0 then
      (seen', Sum.inl ⟨Marker.num idx, "CATEGORÍA '" ++ categoria_nombre ++ "' no existe."⟩)
    else
      match (if pyTruthy precioRaw then pyFloat? precioRaw else some 0) with
      | none => (seen', Sum.inl ⟨Marker.num idx, "PRECIO inválido."⟩)
      | some p =>
        if p < 0 then
          (seen', Sum.inl ⟨Marker.num idx, "PRECIO no puede ser negativo."⟩)
        else
          match (if pyTruthy stockRaw then pyInt? stockRaw else some 0) with
          | none => (seen', Sum.inl ⟨Marker.num idx, "STOCK inválido."⟩)
          | some st =>
            if st < 0 then
              (seen', Sum.inl ⟨Marker.num idx, "STOCK no puede ser negativo."⟩)
            else
              (seen', Sum.inr ⟨codigo, nombre, descripcion, categoria_id, p, st, 1⟩)

/-- Mutable state of the commit loop. -/
structure PassState where
  seen : List String
  idx : Nat
  errores : List ErrEntry
  productos : List ProductoNew
deriving Repr

def pass_step (ex : List String) (cm : List (String × Nat)) (st : PassState)
    (row : Fila) : PassState :=
  match commit_row ex cm st.seen row st.idx with
  | (seen', Sum.inl e) => ⟨seen', st.idx + 1, st.errores ++ [e], st.productos⟩
  | (seen', Sum.inr p) => ⟨seen', st.idx + 1, st.errores, st.productos ++ [p]⟩

/-- The whole commit validation loop (`for index, row in df.iterrows()`),
starting at row number 2 with empty error/product/seen accumulators. -/
def run_pass (ex : List String) (cm : List (String × Nat))
    (rows : List Fila) : PassState :=
  rows.foldl (pass_step ex cm) ⟨[], 2, [], []⟩

/-- `leer_archivo`: extension check; `content` is the modelled pandas parse
outcome for a supported format (`Except.error` models a raised parse error). -/
def leer_archivo (content : Except String (List Fila)) (filename : String) :
    Except String (List Fila) :=
  let fl := (pyLowerStr filename).toList
  if ".csv".toList.isSuffixOf fl ∨ ".xls".toList.isSuffixOf fl ∨
      ".xlsx".toList.isSuffixOf fl then content
  else Except.error "Formato no soportado. Use CSV, XLS o XLSX."

structure Summary where
  total_filas : Nat
  creados : Nat
  actualizados : Nat
  omitidos_duplicados : Nat
  con_errores : Nat
deriving DecidableEq, Repr

/-- `_generar_mensaje`. -/
def generar_mensaje (creados errores : Nat) : String :=
  if creados > 0 ∧ errores > 0 then
    "Se crearon " ++ toString creados ++ " productos. Se encontraron " ++
      toString errores ++ " errores."
  else if creados > 0 then
    "Se crearon " ++ toString creados ++ " productos correctamente."
  else if errores > 0 then
    "No se pudo cargar ningún producto. " ++ toString errores ++
      " errores encontrados."
  else
    "No se encontraron datos válidos para procesar."

/-- Result of `procesar_archivo` plus the rows actually left persisted by the
pass (`[]` after a rollback), so atomicity is expressible. -/
structure CommitResult where
  summary : Summary
  errors : List ErrEntry
  message : String
  persisted : List ProductoNew
deriving Repr

/-- `CargaMasivaProductoService.procesar_archivo`.  `bulkExc` / `commitExc`
are the exception texts raised by `db.bulk_insert_mappings` / `db.commit`
(`none` = the call succeeds); `bulk_insert_mappings` is only reached when
`productos_a_crear` is nonempty, and `self.summary["creados"]` is assigned
after the bulk insert but before `db.commit()`, exactly as in the source. -/
def procesar_archivo (cats : List Categoria) (prods : List ProductoRow)
    (content : Except String (List Fila)) (filename : String)
    (bulkExc commitExc : Option String) : CommitResult :=
  let ex := precache_codigos prods
  let cm := precache_categorias cats
  match leer_archivo content filename with
  | Except.error e =>
    let errs := [⟨Marker.na, "Error inesperado: " ++ e⟩]
    ⟨⟨0, 0, 0, 0, errs.length⟩, errs, generar_mensaje 0 errs.length, []⟩
  | Except.ok rawRows =>
    let rows := rawRows.map (fun r => r.map (fun p => (normalizar_columna p.1, p.2)))
    let st := run_pass ex cm rows
    let total := rows.length
    if st.productos ≠ [] ∧ bulkExc.isSome then
      let errs := st.errores ++ [⟨Marker.na, "Error inesperado: " ++ bulkExc.getD ""⟩]
      ⟨⟨total, 0, 0, 0, errs.length⟩, errs, generar_mensaje 0 errs.length, []⟩
    else
      let creados := if st.productos ≠ [] then st.productos.length else 0
      match commitExc with
      | some e =>
        let errs := st.errores ++ [⟨Marker.na, "Error inesperado: " ++ e⟩]
        ⟨⟨total, creados, 0, 0, errs.length⟩, errs, generar_mensaje creados errs.length, []⟩
      | none =>
        ⟨⟨total, creados, 0, 0, st.errores.length⟩, st.errores,
          generar_mensaje creados st.errores.length, st.productos⟩

/-! ### Preview pass (`validar_filas_preview`) -/

/-- Preview rule 1 (CÓDIGO): reasons appended plus the updated
`codigos_en_archivo` set (the code is added whenever it is nonempty). -/
def preview_err_codigo (ex seen : List String) (codigo : String) :
    List String × List String :=
  if codigo = "" then (["CÓDIGO es requerido."], seen)
  else
    ((if codigo ∈ ex then
        ["CÓDIGO '" ++ codigo ++ "' ya existe en la base de datos."]
      else []) ++
     (if codigo ∈ seen then
        ["CÓDIGO '" ++ codigo ++ "' está duplicado en el archivo."]
      else []),
     codigo :: seen)

/-- Preview rule 2 (NOMBRE). -/
def preview_err_nombre (nombre : String) : List String :=
  if nombre = "" then ["NOMBRE es requerido."] else []

/-- Preview rule 3 (CATEGORÍA): membership test in `categorias_map`. -/
def preview_err_categoria (cm : List (String × Nat)) (categoria_nombre : String) :
    List String :=
  if categoria_nombre = "" then ["CATEGORÍA es requerida."]
  else if (cm.find? (fun p => p.1 = categoria_nombre)).isNone then
    ["CATEGORÍA '" ++ categoria_nombre ++ "' no existe en la base de datos."]
  else []

/-- Preview rule 4 (PRECIO): only checked when the raw cell is truthy. -/
def preview_err_precio (precioRaw : String) : List String :=
  if pyTruthy precioRaw then
    match pyFloat? precioRaw with
    | none => ["PRECIO debe ser un número válido."]
    | some p => if p < 0 then ["PRECIO no puede ser negativo."] else []
  else []

/-- Preview rule 5 (STOCK): only checked when the raw cell is truthy. -/
def preview_err_stock (stockRaw : String) : List String :=
  if pyTruthy stockRaw then
    match pyInt? stockRaw with
    | none => ["STOCK debe ser un número entero válido."]
    | some st => if st < 0 then ["STOCK no puede ser negativo."] else []
  else []

/-- The validation body of one preview row: the list of reasons
(`errores_fila`, in source order) and the updated seen-set.  The row's keys
are first normalized with `aplanar_nombre_columna` (dict comprehension, last
binding wins). -/
def preview_row (ex : List String) (cm : List (String × Nat)) (seen : List String)
    (row : Fila) : List String × List String :=
  let fila := row.map (fun p => (aplanarStr p.1, p.2))
  let codigo := pyStripUpper (rowGet fila "codigo")
  let nombre := pyStrip (rowGet fila "nombre")
  let categoria_nombre := pyStripUpper (rowGet fila "categoria")
  let precioRaw := rowGet fila "precio"
  let stockRaw := rowGet fila "stock"
  let cPair := preview_err_codigo ex seen codigo
  (cPair.1 ++ preview_err_nombre nombre ++ preview_err_categoria cm categoria_nombre ++
     preview_err_precio precioRaw ++ preview_err_stock stockRaw,
   cPair.2)

/-- One preview result row (`data` is `limpiar_nan(row)`, which is the
identity on string cells). -/
structure PrevRes where
  success : Bool
  data : Fila
  fila : Marker
  error : String
deriving DecidableEq, Repr

structure PrevState where
  seen : List String
  idx : Nat
  resultados : List PrevRes
  tiene_errores : Bool
deriving Repr

def preview_step (ex : List String) (cm : List (String × Nat)) (st : PrevState)
    (row : Fila) : PrevState :=
  let pr := preview_row ex cm st.seen row
  if pr.1 = [] then
    ⟨pr.2, st.idx + 1, st.resultados ++ [⟨true, row, Marker.dash, ""⟩],
      st.tiene_errores⟩
  else
    ⟨pr.2, st.idx + 1,
      st.resultados ++ [⟨false, row, Marker.num st.idx, String.intercalate "; " pr.1⟩],
      true⟩

/-- `CargaMasivaProductoService.validar_filas_preview` (after its own
`_precache_data()` call). -/
def validar_filas_preview (cats : List Categoria) (prods : List ProductoRow)
    (filas : List Fila) : List PrevRes × Bool :=
  let ex := precache_codigos prods
  let cm := precache_categorias cats
  let st := filas.foldl (preview_step ex cm) ⟨[], 2, [], false⟩
  (st.resultados, st.tiene_errores)

/-- Column renaming applied by `procesar_archivo` to the parsed rows. -/
def normalizar_filas (rawRows : List Fila) : List Fila :=
  rawRows.map (fun r => r.map (fun p => (normalizar_columna p.1, p.2)))

/-! ## Lemmas: branch characterizations of `procesar_archivo` -/

lemma procesar_archivo_error (cats : List Categoria) (prods : List ProductoRow)
    (content : Except String (List Fila)) (filename : String)
    (bulkExc commitExc : Option String) (e : String)
    (h : leer_archivo content filename = Except.error e) :
    procesar_archivo cats prods content filename bulkExc commitExc =
      ⟨⟨0, 0, 0, 0, 1⟩, [⟨Marker.na, "Error inesperado: " ++ e⟩],
        generar_mensaje 0 1, []⟩ := by
  unfold procesar_archivo
  rw [h]
  rfl

lemma procesar_archivo_ok (cats : List Categoria) (prods : List ProductoRow)
    (content : Except String (List Fila)) (filename : String)
    (rawRows : List Fila)
    (h : leer_archivo content filename = Except.ok rawRows) :
    procesar_archivo cats prods content filename none none =
      (fun st : PassState =>
        ⟨⟨(normalizar_filas rawRows).length,
            if st.productos ≠ [] then st.productos.length else 0, 0, 0,
            st.errores.length⟩,
          st.errores,
          generar_mensaje (if st.productos ≠ [] then st.productos.length else 0)
            st.errores.length,
          st.productos⟩)
        (run_pass (precache_codigos prods) (precache_categorias cats)
          (normalizar_filas rawRows)) := by
  unfold procesar_archivo normalizar_filas
  rw [h]
  simp

/-! ## Lemmas: counting invariant of the commit loop -/

lemma pass_step_counts (ex : List String) (cm : List (String × Nat))
    (st : PassState) (row : Fila) :
    (pass_step ex cm st row).errores.length + (pass_step ex cm st row).productos.length
      = st.errores.length + st.productos.length + 1 := by
  unfold pass_step
  rcases h : commit_row ex cm st.seen row st.idx with ⟨s', e | p⟩ <;> simp [h] <;> omega

lemma foldl_pass_counts (ex : List String) (cm : List (String × Nat)) :
    ∀ (rows : List Fila) (st : PassState),
    (rows.foldl (pass_step ex cm) st).errores.length +
      (rows.foldl (pass_step ex cm) st).productos.length
      = st.errores.length + st.productos.length + rows.length
  | [], st => by simp
  | row :: rest, st => by
    have h1 := foldl_pass_counts ex cm rest (pass_step ex cm st row)
    have h2 := pass_step_counts ex cm st row
    simp only [List.foldl_cons, List.length_cons]
    omega

lemma run_pass_counts (ex : List String) (cm : List (String × Nat))
    (rows : List Fila) :
    (run_pass ex cm rows).errores.length + (run_pass ex cm rows).productos.length
      = rows.length := by
  have h := foldl_pass_counts ex cm rows ⟨[], 2, [], []⟩
  simpa [run_pass] using h

/-! ## C1: conservation of the summary counts -/

/-- C1 counterexample: a commit pass whose parse step raises (unsupported
extension `.txt`) records a synthetic error but leaves `total_filas = 0`, so
`total_filas = creados + actualizados + con_errores` fails (0 ≠ 1). -/
theorem conservation_cex :
    ¬ ((procesar_archivo [] [] (Except.ok []) "f.txt" none none).summary.total_filas
        = (procesar_archivo [] [] (Except.ok []) "f.txt" none none).summary.creados
          + (procesar_archivo [] [] (Except.ok []) "f.txt" none none).summary.actualizados
          + (procesar_archivo [] [] (Except.ok []) "f.txt" none none).summary.con_errores) := by
  decide

/-- C1 (amended): for every commit pass in which no exception is caught
(the file parses and both persistence calls succeed), the returned summary
satisfies `total_filas = creados + actualizados + con_errores`.  (In passes
that caught an unexpected failure the synthetic error entry makes the sum
exceed `total_filas`.) -/
theorem conservation_sin_excepcion (cats : List Categoria)
    (prods : List ProductoRow) (content : Except String (List Fila))
    (filename : String) (rawRows : List Fila)
    (h : leer_archivo content filename = Except.ok rawRows) :
    (procesar_archivo cats prods content filename none none).summary.total_filas
      = (procesar_archivo cats prods content filename none none).summary.creados
        + (procesar_archivo cats prods content filename none none).summary.actualizados
        + (procesar_archivo cats prods content filename none none).summary.con_errores := by
  have hc := run_pass_counts (precache_codigos prods) (precache_categorias cats)
    (normalizar_filas rawRows)
  rw [procesar_archivo_ok cats prods content filename rawRows h]
  dsimp only
  split
  · omega
  · rename_i hnil
    rw [not_ne_iff] at hnil
    rw [hnil] at hc
    simp only [List.length_nil] at hc
    omega

/-- Witness for C1: a concrete exception-free pass (empty CSV) satisfying the
conservation equation. -/
theorem conservation_sin_excepcion_witness :
    leer_archivo (Except.ok ([] : List Fila)) "f.csv" = Except.ok [] ∧
    (procesar_archivo [] [] (Except.ok []) "f.csv" none none).summary.total_filas
      = (procesar_archivo [] [] (Except.ok []) "f.csv" none none).summary.creados
        + (procesar_archivo [] [] (Except.ok []) "f.csv" none none).summary.actualizados
        + (procesar_archivo [] [] (Except.ok []) "f.csv" none none).summary.con_errores :=
  ⟨by rfl, conservation_sin_excepcion [] [] (Except.ok []) "f.csv" [] (by rfl)⟩

/-! ## C9: empty file and the four message templates -/

lemma procesar_message_eq (cats : List Categoria) (prods : List ProductoRow)
    (content : Except String (List Fila)) (filename : String)
    (bulkExc commitExc : Option String) :
    (procesar_archivo cats prods content filename bulkExc commitExc).message =
      generar_mensaje
        (procesar_archivo cats prods content filename bulkExc commitExc).summary.creados
        (procesar_archivo cats prods content filename bulkExc commitExc).summary.con_errores := by
  unfold procesar_archivo
  rcases hl : leer_archivo content filename with e | rawRows
  · rfl
  · dsimp only
    split
    · rfl
    · rcases commitExc with e | _ <;> rfl

/-- C9: a commit pass whose input parses to zero data rows returns
`total_filas = creados = con_errores = 0` with the nothing-valid-found
template, and in general the returned message is deterministically selected
among exactly four templates by whether `creados > 0` and `con_errores > 0`. -/
theorem mensaje_resumen (cats : List Categoria) (prods : List ProductoRow)
    (content : Except String (List Fila)) (filename : String)
    (h : leer_archivo content filename = Except.ok []) :
    ((procesar_archivo cats prods content filename none none).summary.total_filas = 0 ∧
     (procesar_archivo cats prods content filename none none).summary.creados = 0 ∧
     (procesar_archivo cats prods content filename none none).summary.con_errores = 0 ∧
     (procesar_archivo cats prods content filename none none).message =
       "No se encontraron datos válidos para procesar.") ∧
    (∀ (cats2 : List Categoria) (prods2 : List ProductoRow)
       (content2 : Except String (List Fila)) (filename2 : String)
       (bulkExc commitExc : Option String),
      ((procesar_archivo cats2 prods2 content2 filename2 bulkExc commitExc).summary.creados > 0 →
        (procesar_archivo cats2 prods2 content2 filename2 bulkExc commitExc).summary.con_errores > 0 →
        (procesar_archivo cats2 prods2 content2 filename2 bulkExc commitExc).message =
          "Se crearon " ++ toString (procesar_archivo cats2 prods2 content2 filename2 bulkExc commitExc).summary.creados
            ++ " productos. Se encontraron "
            ++ toString (procesar_archivo cats2 prods2 content2 filename2 bulkExc commitExc).summary.con_errores
            ++ " errores.") ∧
      ((procesar_archivo cats2 prods2 content2 filename2 bulkExc commitExc).summary.creados > 0 →
        (procesar_archivo cats2 prods2 content2 filename2 bulkExc commitExc).summary.con_errores = 0 →
        (procesar_archivo cats2 prods2 content2 filename2 bulkExc commitExc).message =
          "Se crearon " ++ toString (procesar_archivo cats2 prods2 content2 filename2 bulkExc commitExc).summary.creados
            ++ " productos correctamente.") ∧
      ((procesar_archivo cats2 prods2 content2 filename2 bulkExc commitExc).summary.creados = 0 →
        (procesar_archivo cats2 prods2 content2 filename2 bulkExc commitExc).summary.con_errores > 0 →
        (procesar_archivo cats2 prods2 content2 filename2 bulkExc commitExc).message =
          "No se pudo cargar ningún producto. "
            ++ toString (procesar_archivo cats2 prods2 content2 filename2 bulkExc commitExc).summary.con_errores
            ++ " errores encontrados.") ∧
      ((procesar_archivo cats2 prods2 content2 filename2 bulkExc commitExc).summary.creados = 0 →
        (procesar_archivo cats2 prods2 content2 filename2 bulkExc commitExc).summary.con_errores = 0 →
        (procesar_archivo cats2 prods2 content2 filename2 bulkExc commitExc).message =
          "No se encontraron datos válidos para procesar.")) := by
  constructor
  · rw [procesar_archivo_ok cats prods content filename [] h]
    dsimp only
    simp [normalizar_filas, run_pass, generar_mensaje]
  · intro cats2 prods2 content2 filename2 bulkExc commitExc
    have hm := procesar_message_eq cats2 prods2 content2 filename2 bulkExc commitExc
    refine ⟨?_, ?_, ?_, ?_⟩ <;> intro h1 h2 <;> rw [hm] <;> unfold generar_mensaje
    · rw [if_pos ⟨h1, h2⟩]
    · rw [if_neg (by omega), if_pos h1]
    · rw [if_neg (by omega), if_neg (by omega), if_pos h2]
    · rw [if_neg (by omega), if_neg (by omega), if_neg (by omega)]

/-- Witness for C9 at a concrete empty CSV commit pass. -/
theorem mensaje_resumen_witness :
    (procesar_archivo [] [] (Except.ok []) "f.csv" none none).message =
      "No se encontraron datos válidos para procesar." :=
  (mensaje_resumen [] [] (Except.ok []) "f.csv" (by rfl)).1.2.2.2

/-! ## Lemmas: characterization of `commit_row` -/

/-- The business key computed by the commit loop for a row. -/
def clave (row : Fila) : String := pyStripUpper (rowGet row "codigo")

lemma commit_row_inr {ex : List String} {cm : List (String × Nat)}
    {seen s' : List String} {row : Fila} {idx : Nat} {p : ProductoNew}
    (h : commit_row ex cm seen row idx = (s', Sum.inr p)) :
    p.codigo = clave row ∧ s' = p.codigo :: seen ∧
    p.codigo ∉ ex ∧ p.codigo ∉ seen ∧ p.codigo ≠ "" := by
  unfold commit_row at h
  unfold clave
  dsimp only at h
  repeat' split at h
  all_goals simp_all
  all_goals obtain ⟨hs, hp⟩ := h
  all_goals subst hp
  all_goals subst hs
  all_goals exact ⟨rfl, rfl, by simp_all, by simp_all, by simp_all⟩

lemma commit_row_seen_cases (ex : List String) (cm : List (String × Nat))
    (seen : List String) (row : Fila) (idx : Nat) :
    (commit_row ex cm seen row idx).1 = seen ∨
    (commit_row ex cm seen row idx).1 = clave row :: seen := by
  unfold commit_row clave
  dsimp only
  repeat' split
  all_goals simp

lemma commit_row_seen_super (ex : List String) (cm : List (String × Nat))
    (seen : List String) (row : Fila) (idx : Nat) :
    seen ⊆ (commit_row ex cm seen row idx).1 := by
  rcases commit_row_seen_cases ex cm seen row idx with h | h <;> rw [h]
  · exact fun x hx => hx
  · exact fun x hx => List.mem_cons_of_mem _ hx

lemma pass_step_seen (ex : List String) (cm : List (String × Nat))
    (st : PassState) (row : Fila) :
    (pass_step ex cm st row).seen = (commit_row ex cm st.seen row st.idx).1 := by
  unfold pass_step
  rcases h : commit_row ex cm st.seen row st.idx with ⟨s', e | p⟩ <;> simp [h]

lemma pass_step_idx (ex : List String) (cm : List (String × Nat))
    (st : PassState) (row : Fila) :
    (pass_step ex cm st row).idx = st.idx + 1 := by
  unfold pass_step
  rcases h : commit_row ex cm st.seen row st.idx with ⟨s', e | p⟩ <;> simp [h]

lemma pass_step_seen_super (ex : List String) (cm : List (String × Nat))
    (st : PassState) (row : Fila) :
    st.seen ⊆ (pass_step ex cm st row).seen := by
  rw [pass_step_seen]
  exact commit_row_seen_super ex cm st.seen row st.idx

lemma foldl_pass_seen_super (ex : List String) (cm : List (String × Nat)) :
    ∀ (rows : List Fila) (st : PassState),
    st.seen ⊆ (rows.foldl (pass_step ex cm) st).seen
  | [], st => by simp
  | row :: rest, st => by
    simp only [List.foldl_cons]
    exact (pass_step_seen_super ex cm st row).trans
      (foldl_pass_seen_super ex cm rest (pass_step ex cm st row))

/-! ## C2: accepted business keys are pairwise distinct and fresh -/

lemma run_pass_inv (ex : List String) (cm : List (String × Nat)) :
    ∀ (rows : List Fila) (st : PassState),
    (∀ p ∈ st.productos, p.codigo ∉ ex ∧ p.codigo ∈ st.seen) →
    (st.productos.map (fun p => p.codigo)).Nodup →
    (∀ p ∈ (rows.foldl (pass_step ex cm) st).productos,
        p.codigo ∉ ex ∧ p.codigo ∈ (rows.foldl (pass_step ex cm) st).seen) ∧
    ((rows.foldl (pass_step ex cm) st).productos.map (fun p => p.codigo)).Nodup
  | [], st => fun h1 h2 => ⟨h1, h2⟩
  | row :: rest, st => by
    intro h1 h2
    simp only [List.foldl_cons]
    refine run_pass_inv ex cm rest (pass_step ex cm st row) ?_ ?_
    · unfold pass_step
      rcases h : commit_row ex cm st.seen row st.idx with ⟨s', e | p⟩
      · simp only [h]
        intro q hq
        refine ⟨(h1 q hq).1, ?_⟩
        have hs : st.seen ⊆ s' := by
          have := commit_row_seen_super ex cm st.seen row st.idx
          rw [h] at this
          exact this
        exact hs (h1 q hq).2
      · simp only [h]
        intro q hq
        rcases List.mem_append.mp hq with hq | hq
        · have hc := commit_row_inr h
          refine ⟨(h1 q hq).1, ?_⟩
          rw [hc.2.1]
          exact List.mem_cons_of_mem _ (h1 q hq).2
        · have hc := commit_row_inr h
          rcases List.mem_singleton.mp hq with rfl
          exact ⟨hc.2.2.1, by rw [hc.2.1]; exact List.mem_cons_self _ _⟩
    · unfold pass_step
      rcases h : commit_row ex cm st.seen row st.idx with ⟨s', e | p⟩
      · simpa only [h] using h2
      · simp only [h]
        have hc := commit_row_inr h
        have hnot : p.codigo ∉ st.productos.map (fun p => p.codigo) := by
          intro hmem
          rcases List.mem_map.mp hmem with ⟨q, hq, hq2⟩
          exact hc.2.2.2.1 (hq2 ▸ (h1 q hq).2)
        simp [List.nodup_append, h2, hnot]

/-- C2: in every commit pass, the business keys (`codigo`) of the rows
accepted for persistence (`productos_a_crear`) are pairwise distinct and
disjoint from the existing active keys loaded into `codigos_existentes` at
the start of the pass. -/
theorem claves_aceptadas_disjuntas (cats : List Categoria)
    (prods : List ProductoRow) (rawRows : List Fila) :
    (((run_pass (precache_codigos prods) (precache_categorias cats)
        (normalizar_filas rawRows)).productos.map (fun p => p.codigo)).Nodup) ∧
    ∀ p ∈ (run_pass (precache_codigos prods) (precache_categorias cats)
        (normalizar_filas rawRows)).productos,
      p.codigo ∉ precache_codigos prods := by
  have h := run_pass_inv (precache_codigos prods) (precache_categorias cats)
    (normalizar_filas rawRows) ⟨[], 2, [], []⟩ (by simp) (by simp)
  constructor
  · simpa only [run_pass] using h.2
  · intro p hp
    simp only [run_pass] at hp
    exact (h.1 p hp).1

/-! ## C4: caught exceptions roll back, add one synthetic "N/A" error -/

lemma commit_row_inl_fila {ex : List String} {cm : List (String × Nat)}
    {seen s' : List String} {row : Fila} {idx : Nat} {e : ErrEntry}
    (h : commit_row ex cm seen row idx = (s', Sum.inl e)) :
    e.fila = Marker.num idx := by
  unfold commit_row at h
  dsimp only at h
  repeat' split at h
  all_goals simp_all
  all_goals obtain ⟨h1, h2⟩ := h
  all_goals subst h2
  all_goals rfl

lemma foldl_pass_fila_num (ex : List String) (cm : List (String × Nat)) :
    ∀ (rows : List Fila) (st : PassState),
    (∀ e ∈ st.errores, ∃ n, e.fila = Marker.num n) →
    ∀ e ∈ (rows.foldl (pass_step ex cm) st).errores, ∃ n, e.fila = Marker.num n
  | [], st => fun h => h
  | row :: rest, st => by
    intro h
    simp only [List.foldl_cons]
    refine foldl_pass_fila_num ex cm rest (pass_step ex cm st row) ?_
    unfold pass_step
    rcases hc : commit_row ex cm st.seen row st.idx with ⟨s', e0 | p⟩
    · simp only [hc]
      intro e he
      rcases List.mem_append.mp he with he | he
      · exact h e he
      · rcases List.mem_singleton.mp he with rfl
        exact ⟨st.idx, commit_row_inl_fila hc⟩
    · simpa only [hc] using h

lemma run_pass_fila_num (ex : List String) (cm : List (String × Nat))
    (rows : List Fila) :
    ∀ e ∈ (run_pass ex cm rows).errores, ∃ n, e.fila = Marker.num n := by
  intro e he
  simp only [run_pass] at he
  exact foldl_pass_fila_num ex cm rows ⟨[], 2, [], []⟩ (by simp) e he

lemma countP_na_zero (es : List ErrEntry)
    (h : ∀ e ∈ es, ∃ n, e.fila = Marker.num n) :
    es.countP (fun er => decide (er.fila = Marker.na)) = 0 := by
  rw [List.countP_eq_zero]
  intro e he
  rcases h e he with ⟨n, hn⟩
  simp [hn]

/-- C4: whenever an exception is raised inside the commit pass (parse failure
or persistence failure, as opposed to per-row validation rejections), the pass
is rolled back (no partial writes retained), exactly one synthetic error entry
with the non-numeric marker `"N/A"` is appended as the last error, the
exception is not re-raised (the function still returns a structured result),
and the summary's error count matches the returned error list. -/
theorem excepcion_rollback (cats : List Categoria) (prods : List ProductoRow)
    (content : Except String (List Fila)) (filename : String)
    (bulkExc commitExc : Option String)
    (hexc : (∃ e, leer_archivo content filename = Except.error e) ∨
      (∃ rawRows, leer_archivo content filename = Except.ok rawRows ∧
        (((run_pass (precache_codigos prods) (precache_categorias cats)
            (normalizar_filas rawRows)).productos ≠ [] ∧ bulkExc.isSome) ∨
         commitExc.isSome))) :
    (procesar_archivo cats prods content filename bulkExc commitExc).persisted = [] ∧
    ((procesar_archivo cats prods content filename bulkExc commitExc).errors.countP
      (fun er => decide (er.fila = Marker.na))) = 1 ∧
    (∃ m, (procesar_archivo cats prods content filename bulkExc commitExc).errors.getLast?
      = some ⟨Marker.na, m⟩) ∧
    (procesar_archivo cats prods content filename bulkExc commitExc).summary.con_errores
      = (procesar_archivo cats prods content filename bulkExc commitExc).errors.length := by
  rcases hexc with ⟨e, hl⟩ | ⟨rawRows, hl, hcase⟩
  · rw [procesar_archivo_error cats prods content filename bulkExc commitExc e hl]
    refine ⟨rfl, by simp, ⟨"Error inesperado: " ++ e, by simp⟩, rfl⟩
  · have hnum := run_pass_fila_num (precache_codigos prods) (precache_categorias cats)
      (normalizar_filas rawRows)
    have hz := countP_na_zero _ hnum
    unfold procesar_archivo
    rw [hl]
    dsimp only
    rw [show (rawRows.map (fun r => r.map (fun p => (normalizar_columna p.1, p.2))))
        = normalizar_filas rawRows from rfl]
    by_cases hb : (run_pass (precache_codigos prods) (precache_categorias cats)
        (normalizar_filas rawRows)).productos ≠ [] ∧ bulkExc.isSome = true
    · rw [if_pos hb]
      refine ⟨rfl, ?_, ⟨_, List.getLast?_concat _⟩, by simp⟩
      rw [List.countP_append, hz]
      simp
    · rw [if_neg hb]
      rcases hcexc : commitExc with _ | e2
      · rcases hcase with hcase | hcase
        · exact absurd hcase hb
        · rw [hcexc] at hcase
          simp at hcase
      · dsimp only
        refine ⟨rfl, ?_, ⟨_, List.getLast?_concat _⟩, by simp⟩
        rw [List.countP_append, hz]
        simp

/-- Witness for C4: an unsupported-extension pass (parse raises before any
row is processed). -/
theorem excepcion_rollback_witness :
    (procesar_archivo [] [] (Except.ok []) "f.txt" none none).persisted = [] ∧
    ((procesar_archivo [] [] (Except.ok []) "f.txt" none none).errors.countP
      (fun er => decide (er.fila = Marker.na))) = 1 ∧
    (∃ m, (procesar_archivo [] [] (Except.ok []) "f.txt" none none).errors.getLast?
      = some ⟨Marker.na, m⟩) ∧
    (procesar_archivo [] [] (Except.ok []) "f.txt" none none).summary.con_errores
      = (procesar_archivo [] [] (Except.ok []) "f.txt" none none).errors.length :=
  excepcion_rollback [] [] (Except.ok []) "f.txt" none none
    (Or.inl ⟨"Formato no soportado. Use CSV, XLS o XLSX.", by rfl⟩)

/-! ## C6: reference cache (active-only records, key casing) -/

/-- C6 counterexample: an ACTIVE persisted code stored in lowercase (`"x1"`)
is not detected as "already exists": the same text supplied in a row is
uppercased to `"X1"` before the comparison, while `codigos_existentes` keeps
the stored key verbatim, so the row is accepted and created. -/
theorem precache_casing_cex :
    precache_codigos [⟨"x1", 1⟩] = ["x1"] ∧
    (procesar_archivo [⟨1, "Cat", 1⟩] [⟨"x1", 1⟩]
      (Except.ok [[("CODIGO", "x1"), ("NOMBRE", "n"), ("CATEGORIA", "Cat")]])
      "f.csv" none none).errors = [] ∧
    (procesar_archivo [⟨1, "Cat", 1⟩] [⟨"x1", 1⟩]
      (Except.ok [[("CODIGO", "x1"), ("NOMBRE", "n"), ("CATEGORIA", "Cat")]])
      "f.csv" none none).summary.creados = 1 := by
  refine ⟨rfl, ?_, ?_⟩ <;> decide

lemma precache_codigos_ne_empty {prods : List ProductoRow} {k : String}
    (h : k ∈ precache_codigos prods) : k ≠ "" := by
  unfold precache_codigos at h
  rcases List.mem_filter.mp h with ⟨-, h2⟩
  simpa using h2

/-- C6 (amended): the reference cache contains only active records (estado = 1)
for both maps; the category map's keys are uppercased before insertion, but the
existing-code set stores codes verbatim (nonempty ones only).  Detection of an
existing key is therefore case-insensitive only in the SUPPLIED value: any row
whose stripped-and-uppercased code equals a stored key is rejected as already
existing, whatever case it was supplied in; a key stored in non-uppercase form
escapes detection. -/
theorem precache_amended :
    (∀ (cats : List Categoria) (c : String × Nat),
      c ∈ precache_categorias cats ↔
        ∃ cat ∈ cats, cat.estado = 1 ∧ c = (pyUpperStr cat.nombre, cat.id)) ∧
    (∀ (prods : List ProductoRow) (k : String),
      k ∈ precache_codigos prods ↔
        ∃ p ∈ prods, p.estado = 1 ∧ p.codigo = k ∧ k ≠ "") ∧
    (∀ (prods : List ProductoRow) (cm : List (String × Nat))
       (seen : List String) (row : Fila) (idx : Nat),
      clave row ∈ precache_codigos prods →
      (commit_row (precache_codigos prods) cm seen row idx).2 =
        Sum.inl ⟨Marker.num idx,
          "CÓDIGO '" ++ clave row ++ "' ya existe en BD."⟩) := by
  refine ⟨?_, ?_, ?_⟩
  · intro cats c
    unfold precache_categorias
    simp only [List.mem_map, List.mem_filter, beq_iff_eq]
    constructor
    · rintro ⟨cat, ⟨hmem, hact⟩, rfl⟩
      exact ⟨cat, hmem, hact, rfl⟩
    · rintro ⟨cat, hmem, hact, rfl⟩
      exact ⟨cat, ⟨hmem, hact⟩, rfl⟩
  · intro prods k
    unfold precache_codigos
    simp only [List.mem_filter, List.mem_map, List.mem_filter, bne_iff_ne, ne_eq,
      beq_iff_eq]
    constructor
    · rintro ⟨⟨p, ⟨hmem, hact⟩, rfl⟩, hne⟩
      exact ⟨p, hmem, hact, rfl, hne⟩
    · rintro ⟨p, hmem, hact, rfl, hne⟩
      exact ⟨⟨p, ⟨hmem, hact⟩, rfl⟩, hne⟩
  · intro prods cm seen row idx h
    have hne : clave row ≠ "" := precache_codigos_ne_empty h
    unfold commit_row
    dsimp only
    unfold clave at hne h ⊢
    rw [if_neg hne, if_pos h]

/-- Witness for C6: a stored uppercase key `"X1"` is detected even when the
row supplies it in lowercase. -/
theorem precache_amended_witness :
    (commit_row (precache_codigos [⟨"X1", 1⟩]) [] [] [("codigo", "x1")] 2).2 =
      Sum.inl ⟨Marker.num 2, "CÓDIGO 'X1' ya existe en BD."⟩ := by
  have h := precache_amended.2.2 [⟨"X1", 1⟩] [] [] [("codigo", "x1")] 2 (by decide)
  exact h.trans (by decide)

/-! ## C10: stock values strictly between -1 and 0 truncate to 0 -/

lemma pyTrunc_neg_frac {q : ℚ} (h1 : -1 < q) (h2 : q < 0) : pyTrunc q = 0 := by
  unfold pyTrunc
  have hnum : q.num < 0 := Rat.num_neg.mpr h2
  have hlt : -q < 1 := by linarith
  have hq : (-q).num < ((-q).den : Int) := Rat.lt_one_iff_num_lt_denom.mp hlt
  rw [Rat.num_neg_eq_neg_num, Rat.den_neg_eq_den] at hq
  have h0 : (0 : Int) ≤ -q.num := by omega
  have hz := Int.tdiv_eq_zero_of_lt h0 hq
  have hneg := Int.neg_tdiv q.num (q.den : Int)
  omega

/-- A canonical row shape with the five producto fields. -/
def fila5 (c n g pv sv : String) : Fila :=
  [("codigo", c), ("nombre", n), ("categoria", g), ("precio", pv), ("stock", sv)]

lemma rowGet_fila5_codigo (c n g pv sv : String) :
    rowGet (fila5 c n g pv sv) "codigo" = c := rfl

lemma rowGet_fila5_nombre (c n g pv sv : String) :
    rowGet (fila5 c n g pv sv) "nombre" = n := rfl

lemma rowGet_fila5_categoria (c n g pv sv : String) :
    rowGet (fila5 c n g pv sv) "categoria" = g := rfl

lemma rowGet_fila5_precio (c n g pv sv : String) :
    rowGet (fila5 c n g pv sv) "precio" = pv := rfl

lemma rowGet_fila5_stock (c n g pv sv : String) :
    rowGet (fila5 c n g pv sv) "stock" = sv := rfl

lemma rowGet_fila5_descripcion (c n g pv sv : String) :
    rowGet (fila5 c n g pv sv) "descripcion" = "" := rfl

/-- C10: for every stock cell whose parsed float value lies strictly between
-1 and 0, the stock rule produces no rejection in the preview validator, and
on commit such a row (when otherwise valid) is accepted with stored stock 0,
because `int(float(s))` truncates toward zero. -/
theorem stock_fraccion_negativa (s : String) (q : ℚ)
    (hs : pyFloat? s = some q) (h1 : -1 < q) (h2 : q < 0) :
    preview_err_stock s = [] ∧
    ∀ (ex : List String) (cm : List (String × Nat)) (seen : List String)
      (idx : Nat) (c n g pv : String) (qp : ℚ),
      pyStripUpper c ≠ "" → pyStripUpper c ∉ ex → pyStripUpper c ∉ seen →
      pyStrip n ≠ "" →
      ¬ (dictFind? cm (pyStripUpper g)).getD 0 = 0 →
      (if pyTruthy pv = true then pyFloat? pv else some 0) = some qp →
      ¬ qp < 0 →
      ∃ p : ProductoNew,
        (commit_row ex cm seen (fila5 c n g pv s) idx).2 = Sum.inr p ∧
        p.stock = 0 := by
  have htr : pyTrunc q = 0 := pyTrunc_neg_frac h1 h2
  have hint : pyInt? s = some 0 := by
    unfold pyInt?
    rw [hs]
    simp [htr]
  constructor
  · unfold preview_err_stock
    rw [hint]
    split <;> simp
  · intro ex cm seen idx c n g pv qp hcne hcex hcseen hn hcat hpv hqp
    unfold commit_row
    dsimp only
    simp only [rowGet_fila5_codigo, rowGet_fila5_nombre, rowGet_fila5_categoria,
      rowGet_fila5_precio, rowGet_fila5_stock, rowGet_fila5_descripcion]
    rw [if_neg hcne, if_neg hcex, if_neg hcseen, if_neg hn, if_neg hcat, hpv]
    dsimp only
    rw [if_neg hqp]
    have hts : pyTruthy s = true := by
      have hne : s ≠ "" := by
        rintro rfl
        rw [show pyFloat? "" = none from rfl] at hs
        cases hs
      simp [pyTruthy, hne]
    rw [hts, if_pos rfl, hint]
    dsimp only
    rw [if_neg (by omega : ¬ (0 : Int) < 0)]
    exact ⟨_, rfl, rfl⟩

/-- Witness for C10 at `s = "-0.5"` with an otherwise-valid row. -/
theorem stock_fraccion_negativa_witness :
    preview_err_stock "-0.5" = [] ∧
    ∃ p : ProductoNew,
      (commit_row [] [("CAT", 5)] [] (fila5 "X1" "N" "Cat" "" "-0.5") 2).2 =
        Sum.inr p ∧ p.stock = 0 := by
  have h := stock_fraccion_negativa "-0.5" (mkRat (-1) 2) (by decide) (by decide) (by decide)
  exact ⟨h.1, h.2 [] [("CAT", 5)] [] 2 "X1" "N" "Cat" "" 0 (by decide) (by decide)
    (by decide) (by decide) (by decide) (by decide) (by decide)⟩

/-! ## C7: commit-pass column mapping (override first, then fallback) -/

/-- C7 counterexample: for a header with no override entry the commit pass
falls back to `strip().lower()` only — NOT to the generic normalization
algorithm (`aplanar_nombre_columna`), which would also collapse spaces to
underscores. -/
theorem normalizar_columna_cex :
    normalizar_columna "MI COLUMNA X" = "mi columna x" ∧
    aplanarStr "MI COLUMNA X" = "mi_columna_x" ∧
    normalizar_columna "MI COLUMNA X" ≠ aplanarStr "MI COLUMNA X" := by
  exact ⟨by decide, by decide, by decide⟩

/-- C7 (amended): the commit pass maps each header by first checking the
entity's override mapping case-insensitively (the header is trimmed and
uppercased before the lookup); when no override matches it falls back to the
trimmed-and-lowercased header (it does not apply the full generic
normalization algorithm). -/
theorem normalizar_columna_amended :
    (∀ (c : String) (p : String × String),
      column_map.find? (fun q => q.1 = pyStripUpper c) = some p →
      normalizar_columna c = p.2) ∧
    (∀ c : String,
      column_map.find? (fun q => q.1 = pyStripUpper c) = none →
      normalizar_columna c = pyStripLower c) := by
  constructor
  · intro c p h
    unfold normalizar_columna
    rw [h]
  · intro c h
    unfold normalizar_columna
    rw [h]

/-- Witness for C7: the override matches `" código "` case-insensitively;
an unmapped header falls back to trim+lowercase. -/
theorem normalizar_columna_amended_witness :
    normalizar_columna " código " = "codigo" ∧
    normalizar_columna " Fecha De Alta " = "fecha de alta" :=
  ⟨normalizar_columna_amended.1 " código " ("CÓDIGO", "codigo") (by decide),
   (normalizar_columna_amended.2 " Fecha De Alta " (by decide)).trans (by decide)⟩

/-! ## C3: duplicate business keys within one file -/

lemma commit_row_dup (ex : List String) (cm : List (String × Nat))
    (seen : List String) (row : Fila) (idx : Nat)
    (hne : clave row ≠ "") (hex : clave row ∉ ex) (hseen : clave row ∈ seen) :
    commit_row ex cm seen row idx =
      (seen, Sum.inl ⟨Marker.num idx,
        "CÓDIGO '" ++ clave row ++ "' duplicado en archivo."⟩) := by
  unfold clave at hne hex hseen
  unfold commit_row
  dsimp only
  rw [if_neg hne, if_neg hex, if_pos hseen]
  rfl

lemma commit_row_add (ex : List String) (cm : List (String × Nat))
    (seen : List String) (row : Fila) (idx : Nat)
    (hne : clave row ≠ "") (hex : clave row ∉ ex) (hseen : clave row ∉ seen) :
    (commit_row ex cm seen row idx).1 = clave row :: seen := by
  unfold clave at hne hex hseen ⊢
  unfold commit_row
  dsimp only
  rw [if_neg hne, if_neg hex, if_neg hseen]
  repeat' split
  all_goals rfl

lemma foldl_pass_idx (ex : List String) (cm : List (String × Nat)) :
    ∀ (rows : List Fila) (st : PassState),
    (rows.foldl (pass_step ex cm) st).idx = st.idx + rows.length
  | [], st => by simp
  | row :: rest, st => by
    simp only [List.foldl_cons, List.length_cons]
    rw [foldl_pass_idx ex cm rest (pass_step ex cm st row), pass_step_idx]
    omega

lemma foldl_pass_seen_mem (ex : List String) (cm : List (String × Nat)) :
    ∀ (rows : List Fila) (st : PassState) (x : String),
    x ∈ (rows.foldl (pass_step ex cm) st).seen →
    x ∈ st.seen ∨ x ∈ rows.map clave
  | [], _, _ => fun h => Or.inl h
  | row :: rest, st, x => by
    intro h
    simp only [List.foldl_cons] at h
    rcases foldl_pass_seen_mem ex cm rest (pass_step ex cm st row) x h with h1 | h1
    · rw [pass_step_seen] at h1
      rcases commit_row_seen_cases ex cm st.seen row st.idx with hc | hc <;> rw [hc] at h1
      · exact Or.inl h1
      · rcases List.mem_cons.mp h1 with rfl | h2
        · exact Or.inr (by simp)
        · exact Or.inl h2
    · exact Or.inr (by simp [h1])

lemma pass_step_errores_inl {ex : List String} {cm : List (String × Nat)}
    {st : PassState} {row : Fila} {s' : List String} {e : ErrEntry}
    (h : commit_row ex cm st.seen row st.idx = (s', Sum.inl e)) :
    (pass_step ex cm st row).errores = st.errores ++ [e] := by
  unfold pass_step
  rw [h]

lemma pass_step_errores_mem (ex : List String) (cm : List (String × Nat))
    (st : PassState) (row : Fila) {e : ErrEntry}
    (h : e ∈ st.errores) : e ∈ (pass_step ex cm st row).errores := by
  unfold pass_step
  rcases hc : commit_row ex cm st.seen row st.idx with ⟨s', e0 | p⟩
  · simp only [hc]
    exact List.mem_append_left _ h
  · simpa only [hc] using h

lemma foldl_pass_errores_mem (ex : List String) (cm : List (String × Nat)) :
    ∀ (rows : List Fila) (st : PassState) {e : ErrEntry},
    e ∈ st.errores → e ∈ (rows.foldl (pass_step ex cm) st).errores
  | [], _, _ => fun h => h
  | row :: rest, st, e => by
    intro h
    simp only [List.foldl_cons]
    exact foldl_pass_errores_mem ex cm rest _ (pass_step_errores_mem ex cm st row h)

/-- The commit-side duplicate behaviour: if the first occurrence of a
nonempty, non-persisted key appears after `pre` (which does not mention the
key), then the later occurrence `r2` is rejected with the
duplicated-in-file error at its row number. -/
lemma run_pass_dup (ex : List String) (cm : List (String × Nat))
    (pre mid post : List Fila) (r1 r2 : Fila)
    (hk : clave r2 = clave r1) (hne : clave r1 ≠ "") (hex : clave r1 ∉ ex)
    (hpre : clave r1 ∉ pre.map clave) :
    (⟨Marker.num (pre.length + mid.length + 3),
      "CÓDIGO '" ++ clave r1 ++ "' duplicado en archivo."⟩ : ErrEntry) ∈
      (run_pass ex cm (pre ++ r1 :: (mid ++ r2 :: post))).errores := by
  unfold run_pass
  rw [show pre ++ r1 :: (mid ++ r2 :: post) = (((pre ++ [r1]) ++ mid) ++ [r2]) ++ post
    by simp]
  rw [List.foldl_append, List.foldl_append]
  simp only [List.foldl_cons, List.foldl_nil]
  apply foldl_pass_errores_mem
  have hnotseen : clave r1 ∉ (pre.foldl (pass_step ex cm) ⟨[], 2, [], []⟩).seen := by
    intro hmem
    rcases foldl_pass_seen_mem ex cm pre ⟨[], 2, [], []⟩ _ hmem with h | h
    · simp at h
    · exact hpre h
  have hadd : clave r1 ∈
      (pass_step ex cm (pre.foldl (pass_step ex cm) ⟨[], 2, [], []⟩) r1).seen := by
    rw [pass_step_seen, commit_row_add ex cm _ r1 _ hne hex hnotseen]
    exact List.mem_cons_self _ _
  have hmid : clave r1 ∈ (((pre ++ [r1]) ++ mid).foldl (pass_step ex cm)
      ⟨[], 2, [], []⟩).seen := by
    rw [List.foldl_append, List.foldl_append]
    simp only [List.foldl_cons, List.foldl_nil]
    exact foldl_pass_seen_super ex cm mid _ hadd
  have hidx : (((pre ++ [r1]) ++ mid).foldl (pass_step ex cm) ⟨[], 2, [], []⟩).idx
      = pre.length + mid.length + 3 := by
    rw [foldl_pass_idx]
    simp [List.length_append]
    omega
  have hstep := commit_row_dup ex cm
    (((pre ++ [r1]) ++ mid).foldl (pass_step ex cm) ⟨[], 2, [], []⟩).seen r2
    (((pre ++ [r1]) ++ mid).foldl (pass_step ex cm) ⟨[], 2, [], []⟩).idx
    (by rw [hk]; exact hne) (by rw [hk]; exact hex) (by rw [hk]; exact hmid)
  rw [pass_step_errores_inl hstep]
  apply List.mem_append_right
  apply List.mem_singleton.mpr
  rw [hk, hidx]

/-! ### Preview-side duplicate behaviour -/

/-- The business key as computed by the preview validator (row keys are
normalized with `aplanar_nombre_columna` first). -/
def clave_preview (row : Fila) : String :=
  pyStripUpper (rowGet (row.map (fun p => (aplanarStr p.1, p.2))) "codigo")

lemma preview_row_seen_cases (ex : List String) (cm : List (String × Nat))
    (seen : List String) (row : Fila) :
    (preview_row ex cm seen row).2 = seen ∨
    (preview_row ex cm seen row).2 = clave_preview row :: seen := by
  unfold preview_row preview_err_codigo clave_preview
  dsimp only
  split
  · exact Or.inl rfl
  · exact Or.inr rfl

lemma preview_row_seen_pos (ex : List String) (cm : List (String × Nat))
    (seen : List String) (row : Fila) (h : clave_preview row ≠ "") :
    (preview_row ex cm seen row).2 = clave_preview row :: seen := by
  unfold clave_preview at h ⊢
  unfold preview_row preview_err_codigo
  dsimp only
  rw [if_neg h]

lemma preview_row_dup_mem (ex : List String) (cm : List (String × Nat))
    (seen : List String) (row : Fila)
    (h1 : clave_preview row ≠ "") (h2 : clave_preview row ∈ seen) :
    ("CÓDIGO '" ++ clave_preview row ++ "' está duplicado en el archivo.") ∈
      (preview_row ex cm seen row).1 := by
  unfold clave_preview at h1 h2 ⊢
  unfold preview_row preview_err_codigo
  dsimp only
  rw [if_neg h1]
  apply List.mem_append_left
  apply List.mem_append_left
  apply List.mem_append_left
  apply List.mem_append_left
  apply List.mem_append_right
  rw [if_pos h2]
  exact List.mem_singleton.mpr rfl

lemma preview_step_seen (ex : List String) (cm : List (String × Nat))
    (st : PrevState) (row : Fila) :
    (preview_step ex cm st row).seen = (preview_row ex cm st.seen row).2 := by
  unfold preview_step
  dsimp only
  split <;> rfl

lemma preview_step_seen_super (ex : List String) (cm : List (String × Nat))
    (st : PrevState) (row : Fila) :
    st.seen ⊆ (preview_step ex cm st row).seen := by
  rw [preview_step_seen]
  rcases preview_row_seen_cases ex cm st.seen row with h | h <;> rw [h]
  · exact fun x hx => hx
  · exact fun x hx => List.mem_cons_of_mem _ hx

lemma foldl_prev_seen_super (ex : List String) (cm : List (String × Nat)) :
    ∀ (rows : List Fila) (st : PrevState),
    st.seen ⊆ (rows.foldl (preview_step ex cm) st).seen
  | [], _ => fun _ hx => hx
  | row :: rest, st => by
    simp only [List.foldl_cons]
    exact (preview_step_seen_super ex cm st row).trans
      (foldl_prev_seen_super ex cm rest (preview_step ex cm st row))

lemma foldl_prev_seen_mem (ex : List String) (cm : List (String × Nat)) :
    ∀ (rows : List Fila) (st : PrevState) (x : String),
    x ∈ (rows.foldl (preview_step ex cm) st).seen →
    x ∈ st.seen ∨ x ∈ rows.map clave_preview
  | [], _, _ => fun h => Or.inl h
  | row :: rest, st, x => by
    intro h
    simp only [List.foldl_cons] at h
    rcases foldl_prev_seen_mem ex cm rest (preview_step ex cm st row) x h with h1 | h1
    · rw [preview_step_seen] at h1
      rcases preview_row_seen_cases ex cm st.seen row with hc | hc <;> rw [hc] at h1
      · exact Or.inl h1
      · rcases List.mem_cons.mp h1 with rfl | h2
        · exact Or.inr (by simp)
        · exact Or.inl h2
    · exact Or.inr (by simp [h1])

lemma preview_step_res_append (ex : List String) (cm : List (String × Nat))
    (st : PrevState) (row : Fila) :
    ∃ x, (preview_step ex cm st row).resultados = st.resultados ++ [x] := by
  unfold preview_step
  dsimp only
  split
  · exact ⟨_, rfl⟩
  · exact ⟨_, rfl⟩

lemma foldl_prev_res_extend (ex : List String) (cm : List (String × Nat)) :
    ∀ (rows : List Fila) (st : PrevState),
    ∃ rest, (rows.foldl (preview_step ex cm) st).resultados = st.resultados ++ rest
  | [], st => ⟨[], by simp⟩
  | row :: rest, st => by
    simp only [List.foldl_cons]
    rcases foldl_prev_res_extend ex cm rest (preview_step ex cm st row) with ⟨r2, h2⟩
    rcases preview_step_res_append ex cm st row with ⟨x, hx⟩
    exact ⟨[x] ++ r2, by rw [h2, hx, List.append_assoc]⟩

/-- C3 (amended): when two rows of one file carry the same nonempty
(uppercased) business key, the preview validator always includes the
duplicated-in-file reason among the later occurrence's reasons, and the
commit validator rejects the later occurrence with the duplicated-in-file
error provided the shared key is not among the persisted existing keys (if it
is, the commit pass rejects both occurrences with the already-exists error
instead, see the counterexample); the first occurrence and all earlier rows
are evaluated independently of what follows them. -/
theorem duplicado_en_archivo (cats : List Categoria) (prods : List ProductoRow) :
    (∀ (pre mid : List Fila) (r1 r2 : Fila),
      clave_preview r2 = clave_preview r1 → clave_preview r1 ≠ "" →
      clave_preview r1 ∉ pre.map clave_preview →
      ("CÓDIGO '" ++ clave_preview r1 ++ "' está duplicado en el archivo.") ∈
        (preview_row (precache_codigos prods) (precache_categorias cats)
          (((pre ++ [r1]) ++ mid).foldl
            (preview_step (precache_codigos prods) (precache_categorias cats))
            ⟨[], 2, [], false⟩).seen r2).1) ∧
    (∀ (pre mid post : List Fila) (r1 r2 : Fila),
      clave r2 = clave r1 → clave r1 ≠ "" →
      clave r1 ∉ precache_codigos prods →
      clave r1 ∉ pre.map clave →
      (⟨Marker.num (pre.length + mid.length + 3),
        "CÓDIGO '" ++ clave r1 ++ "' duplicado en archivo."⟩ : ErrEntry) ∈
        (run_pass (precache_codigos prods) (precache_categorias cats)
          (pre ++ r1 :: (mid ++ r2 :: post))).errores) ∧
    (∀ (l1 l2 : List Fila),
      ∃ rest, (validar_filas_preview cats prods (l1 ++ l2)).1
        = (validar_filas_preview cats prods l1).1 ++ rest) := by
  refine ⟨?_, ?_, ?_⟩
  · intro pre mid r1 r2 hk hne hpre
    have hnotseen : clave_preview r1 ∉
        (pre.foldl (preview_step (precache_codigos prods) (precache_categorias cats))
          ⟨[], 2, [], false⟩).seen := by
      intro hmem
      rcases foldl_prev_seen_mem _ _ pre ⟨[], 2, [], false⟩ _ hmem with h | h
      · simp at h
      · exact hpre h
    have hadd : clave_preview r1 ∈
        (preview_step (precache_codigos prods) (precache_categorias cats)
          (pre.foldl (preview_step (precache_codigos prods) (precache_categorias cats))
            ⟨[], 2, [], false⟩) r1).seen := by
      rw [preview_step_seen, preview_row_seen_pos _ _ _ _ hne]
      exact List.mem_cons_self _ _
    have hmid : clave_preview r1 ∈
        (((pre ++ [r1]) ++ mid).foldl
          (preview_step (precache_codigos prods) (precache_categorias cats))
          ⟨[], 2, [], false⟩).seen := by
      rw [List.foldl_append, List.foldl_append]
      simp only [List.foldl_cons, List.foldl_nil]
      exact foldl_prev_seen_super _ _ mid _ hadd
    have := preview_row_dup_mem (precache_codigos prods) (precache_categorias cats)
      _ r2 (by rw [hk]; exact hne) (by rw [hk]; exact hmid)
    rw [hk] at this
    exact this
  · intro pre mid post r1 r2 hk hne hex hpre
    exact run_pass_dup _ _ pre mid post r1 r2 hk hne hex hpre
  · intro l1 l2
    unfold validar_filas_preview
    dsimp only
    rw [List.foldl_append]
    exact foldl_prev_res_extend _ _ l2 _

/-- Witness for C3 (amended): a two-row file sharing the fresh key "X1";
row 3 is rejected as duplicated in both passes. -/
theorem duplicado_en_archivo_witness :
    ("CÓDIGO 'X1' está duplicado en el archivo.") ∈
      (preview_row (precache_codigos []) (precache_categorias [⟨1, "CAT", 1⟩])
        (([] ++ [[("codigo", "x1")]] ++ []).foldl
          (preview_step (precache_codigos []) (precache_categorias [⟨1, "CAT", 1⟩]))
          ⟨[], 2, [], false⟩).seen [("codigo", "X1")]).1 ∧
    (⟨Marker.num 3, "CÓDIGO 'X1' duplicado en archivo."⟩ : ErrEntry) ∈
      (run_pass (precache_codigos []) (precache_categorias [⟨1, "CAT", 1⟩])
        ([] ++ [("codigo", "x1")] :: ([] ++ [("codigo", "X1")] :: []))).errores := by
  constructor
  · have h := (duplicado_en_archivo [⟨1, "CAT", 1⟩] []).1 [] []
      [("codigo", "x1")] [("codigo", "X1")] (by decide) (by decide) (by decide)
    simpa using h
  · have h := (duplicado_en_archivo [⟨1, "CAT", 1⟩] []).2.1 [] [] []
      [("codigo", "x1")] [("codigo", "X1")] (by decide) (by decide) (by decide)
      (by decide)
    simpa using h

/-- C3 counterexample: when the shared key already exists in the persisted
set, the commit pass rejects the SECOND occurrence with the already-exists
error, not the duplicated-in-file error (the first occurrence was rejected
before being recorded as seen). -/
theorem duplicado_en_archivo_cex :
    ((run_pass (precache_codigos [⟨"X1", 1⟩]) (precache_categorias [⟨1, "CAT", 1⟩])
      [[("codigo", "X1"), ("nombre", "n"), ("categoria", "CAT")],
       [("codigo", "X1"), ("nombre", "n"), ("categoria", "CAT")]]).errores.map
        (fun e => e.msg))
      = ["CÓDIGO 'X1' ya existe en BD.", "CÓDIGO 'X1' ya existe en BD."] ∧
    ("CÓDIGO 'X1' duplicado en archivo.") ∉
      ((run_pass (precache_codigos [⟨"X1", 1⟩]) (precache_categorias [⟨1, "CAT", 1⟩])
        [[("codigo", "X1"), ("nombre", "n"), ("categoria", "CAT")],
         [("codigo", "X1"), ("nombre", "n"), ("categoria", "CAT")]]).errores.map
          (fun e => e.msg)) := by
  exact ⟨by decide, by decide⟩

/-! ## C8: the short-circuited commit error vs the first preview reason -/

/-- The commit error message `ce` and the preview reason `pe` belong to the
same validation rule (for key `k` and lookup value `g`); the commit pass
folds the lookup-required and lookup-not-found cases into one. -/
def mismaCategoria (k g ce pe : String) : Prop :=
  (ce = "CÓDIGO es requerido." ∧ pe = "CÓDIGO es requerido.") ∨
  (ce = "CÓDIGO '" ++ k ++ "' ya existe en BD." ∧
    pe = "CÓDIGO '" ++ k ++ "' ya existe en la base de datos.") ∨
  (ce = "CÓDIGO '" ++ k ++ "' duplicado en archivo." ∧
    pe = "CÓDIGO '" ++ k ++ "' está duplicado en el archivo.") ∨
  (ce = "NOMBRE es requerido." ∧ pe = "NOMBRE es requerido.") ∨
  (ce = "CATEGORÍA '" ++ g ++ "' no existe." ∧
    (pe = "CATEGORÍA es requerida." ∨
     pe = "CATEGORÍA '" ++ g ++ "' no existe en la base de datos.")) ∨
  (ce = "PRECIO inválido." ∧ pe = "PRECIO debe ser un número válido.") ∨
  (ce = "PRECIO no puede ser negativo." ∧ pe = "PRECIO no puede ser negativo.") ∨
  (ce = "STOCK inválido." ∧ pe = "STOCK debe ser un número entero válido.") ∨
  (ce = "STOCK no puede ser negativo." ∧ pe = "STOCK no puede ser negativo.")

lemma map_aplanar_fila5 (c n g pv sv : String) :
    (fila5 c n g pv sv).map (fun p => (aplanarStr p.1, p.2)) = fila5 c n g pv sv := by
  unfold fila5
  simp only [List.map_cons, List.map_nil]
  rw [show aplanarStr "codigo" = "codigo" from rfl,
    show aplanarStr "nombre" = "nombre" from rfl,
    show aplanarStr "categoria" = "categoria" from rfl,
    show aplanarStr "precio" = "precio" from rfl,
    show aplanarStr "stock" = "stock" from rfl]

lemma preview_row_fila5 (ex : List String) (cm : List (String × Nat))
    (seen : List String) (c n g pv sv : String) :
    (preview_row ex cm seen (fila5 c n g pv sv)).1 =
      (preview_err_codigo ex seen (pyStripUpper c)).1 ++
      preview_err_nombre (pyStrip n) ++
      preview_err_categoria cm (pyStripUpper g) ++
      preview_err_precio pv ++ preview_err_stock sv := by
  unfold preview_row
  rw [map_aplanar_fila5]
  dsimp only
  rw [rowGet_fila5_codigo, rowGet_fila5_nombre, rowGet_fila5_categoria,
    rowGet_fila5_precio, rowGet_fila5_stock]

lemma dictFind?_none_iff {α : Type} (m : List (String × α)) (k : String) :
    dictFind? m k = none ↔ m.find? (fun p => p.1 = k) = none := by
  unfold dictFind?
  simp [List.find?_eq_none, List.mem_reverse]

lemma dictFind?_mem {α : Type} {m : List (String × α)} {k : String} {v : α}
    (h : dictFind? m k = some v) : ∃ kv ∈ m, kv.1 = k ∧ kv.2 = v := by
  unfold dictFind? at h
  rcases Option.map_eq_some'.mp h with ⟨kv, hf, hv⟩
  refine ⟨kv, List.mem_reverse.mp (List.mem_of_find?_eq_some hf), ?_, hv⟩
  have := List.find?_some hf
  simpa using this

/-- C8 counterexample: a row with a blank lookup (categoría) field is
reported with the REQUIRED-category reason by the preview validator but with
the does-not-exist-category error by the commit validator. -/
theorem primer_error_cex :
    (commit_row [] [("CAT", 1)] [] (fila5 "X1" "N" "" "" "") 2).2 =
      Sum.inl ⟨Marker.num 2, "CATEGORÍA '' no existe."⟩ ∧
    (preview_row [] [("CAT", 1)] [] (fila5 "X1" "N" "" "" "")).1 =
      ["CATEGORÍA es requerida."] ∧
    "CATEGORÍA '' no existe." ≠ "CATEGORÍA es requerida." := by
  exact ⟨by decide, by decide, by decide⟩

/-- C8 (amended): assuming the cached category map has nonempty keys and
positive ids, whenever the short-circuiting commit validator rejects a row,
the preview validator produces at least one reason for the same row (read
with canonical field keys) and its FIRST reason belongs to the same
validation rule as the commit error — except that a blank lookup field is
reported as "required" in preview but as the does-not-exist-category error in
commit (the commit pass folds the two lookup cases into one). -/
theorem primer_error_misma_regla (ex : List String) (cm : List (String × Nat))
    (seen : List String) (idx : Nat) (c n g pv sv : String)
    (hcm : ∀ kv ∈ cm, kv.1 ≠ "" ∧ 0 < kv.2) :
    ∀ e : ErrEntry, (commit_row ex cm seen (fila5 c n g pv sv) idx).2 = Sum.inl e →
      ∃ pe, (preview_row ex cm seen (fila5 c n g pv sv)).1.head? = some pe ∧
        mismaCategoria (pyStripUpper c) (pyStripUpper g) e.msg pe := by
  intro e he
  unfold commit_row at he
  dsimp only at he
  simp only [rowGet_fila5_codigo, rowGet_fila5_nombre, rowGet_fila5_categoria,
    rowGet_fila5_precio, rowGet_fila5_stock, rowGet_fila5_descripcion] at he
  by_cases h0 : pyStripUpper c = ""
  · rw [if_pos h0] at he
    dsimp only at he
    obtain rfl := (Sum.inl.inj he).symm
    refine ⟨"CÓDIGO es requerido.", ?_, Or.inl ⟨rfl, rfl⟩⟩
    simp [preview_row_fila5, preview_err_codigo, h0]
  rw [if_neg h0] at he
  by_cases h1 : pyStripUpper c ∈ ex
  · rw [if_pos h1] at he
    dsimp only at he
    obtain rfl := (Sum.inl.inj he).symm
    refine ⟨_, ?_, Or.inr (Or.inl ⟨rfl, rfl⟩)⟩
    simp [preview_row_fila5, preview_err_codigo, h0, h1]
  rw [if_neg h1] at he
  by_cases h2 : pyStripUpper c ∈ seen
  · rw [if_pos h2] at he
    dsimp only at he
    obtain rfl := (Sum.inl.inj he).symm
    refine ⟨_, ?_, Or.inr (Or.inr (Or.inl ⟨rfl, rfl⟩))⟩
    simp [preview_row_fila5, preview_err_codigo, h0, h1, h2]
  rw [if_neg h2] at he
  by_cases h3 : pyStrip n = ""
  · rw [if_pos h3] at he
    dsimp only at he
    obtain rfl := (Sum.inl.inj he).symm
    refine ⟨_, ?_, Or.inr (Or.inr (Or.inr (Or.inl ⟨rfl, rfl⟩)))⟩
    simp [preview_row_fila5, preview_err_codigo, preview_err_nombre, h0, h1, h2, h3]
  rw [if_neg h3] at he
  by_cases h4 : (dictFind? cm (pyStripUpper g)).getD 0 = 0
  · rw [if_pos h4] at he
    dsimp only at he
    obtain rfl := (Sum.inl.inj he).symm
    have hnone : dictFind? cm (pyStripUpper g) = none := by
      rcases hf : dictFind? cm (pyStripUpper g) with _ | v
      · rfl
      · rcases dictFind?_mem hf with ⟨kv, hmem, -, hv⟩
        rw [hf] at h4
        simp only [Option.getD_some] at h4
        have := (hcm kv hmem).2
        omega
    have hfind : cm.find? (fun p => p.1 = pyStripUpper g) = none :=
      (dictFind?_none_iff cm (pyStripUpper g)).mp hnone
    by_cases h5 : pyStripUpper g = ""
    · refine ⟨"CATEGORÍA es requerida.", ?_,
        Or.inr (Or.inr (Or.inr (Or.inr (Or.inl ⟨rfl, Or.inl rfl⟩))))⟩
      simp [preview_row_fila5, preview_err_codigo, preview_err_nombre,
        preview_err_categoria, h0, h1, h2, h3, h5]
    · refine ⟨_, ?_,
        Or.inr (Or.inr (Or.inr (Or.inr (Or.inl ⟨rfl, Or.inr rfl⟩))))⟩
      simp [preview_row_fila5, preview_err_codigo, preview_err_nombre,
        preview_err_categoria, h0, h1, h2, h3, h5, hfind]
  rw [if_neg h4] at he
  have hsome : ∃ v, dictFind? cm (pyStripUpper g) = some v := by
    rcases hf : dictFind? cm (pyStripUpper g) with _ | v
    · rw [hf] at h4
      simp at h4
    · exact ⟨v, rfl⟩
  rcases hsome with ⟨v, hv⟩
  have hgne : pyStripUpper g ≠ "" := by
    rcases dictFind?_mem hv with ⟨kv, hmem, hk1, -⟩
    rw [← hk1]
    exact (hcm kv hmem).1
  have hfind : ¬ (cm.find? (fun p => p.1 = pyStripUpper g)).isNone := by
    intro hcontra
    have : cm.find? (fun p => p.1 = pyStripUpper g) = none :=
      Option.isNone_iff_eq_none.mp hcontra
    rw [← dictFind?_none_iff] at this
    rw [hv] at this
    cases this
  rcases hp : (if pyTruthy pv = true then pyFloat? pv else some 0) with _ | p
  · rw [hp] at he
    dsimp only at he
    obtain rfl := (Sum.inl.inj he).symm
    have hpt : pyTruthy pv = true := by
      by_contra hcontra
      rw [if_neg hcontra] at hp
      cases hp
    have hpf : pyFloat? pv = none := by
      rw [if_pos hpt] at hp
      exact hp
    refine ⟨_, ?_, Or.inr (Or.inr (Or.inr (Or.inr (Or.inr (Or.inl ⟨rfl, rfl⟩)))))⟩
    simp [preview_row_fila5, preview_err_codigo, preview_err_nombre,
      preview_err_categoria, preview_err_precio, h0, h1, h2, h3, hgne, hfind,
      hpt, hpf]
  rw [hp] at he
  dsimp only at he
  by_cases h6 : p < 0
  · rw [if_pos h6] at he
    dsimp only at he
    obtain rfl := (Sum.inl.inj he).symm
    have hpt : pyTruthy pv = true := by
      by_contra hcontra
      rw [if_neg hcontra] at hp
      obtain rfl := (Option.some.inj hp).symm
      simp at h6
    have hpf : pyFloat? pv = some p := by
      rw [if_pos hpt] at hp
      exact hp
    refine ⟨_, ?_,
      Or.inr (Or.inr (Or.inr (Or.inr (Or.inr (Or.inr (Or.inl ⟨rfl, rfl⟩))))))⟩
    simp [preview_row_fila5, preview_err_codigo, preview_err_nombre,
      preview_err_categoria, preview_err_precio, h0, h1, h2, h3, hgne, hfind,
      hpt, hpf, h6]
  rw [if_neg h6] at he
  have hP : preview_err_precio pv = [] := by
    unfold preview_err_precio
    rcases hpt : pyTruthy pv with _ | _
    · simp
    · rw [if_pos hpt] at hp
      simp only [if_pos rfl]
      rw [hp]
      simp [h6]
  rcases hq : (if pyTruthy sv = true then pyInt? sv else some 0) with _ | stq
  · rw [hq] at he
    dsimp only at he
    obtain rfl := (Sum.inl.inj he).symm
    have hst : pyTruthy sv = true := by
      by_contra hcontra
      rw [if_neg hcontra] at hq
      cases hq
    have hsf : pyInt? sv = none := by
      rw [if_pos hst] at hq
      exact hq
    refine ⟨_, ?_, Or.inr (Or.inr (Or.inr (Or.inr (Or.inr (Or.inr
      (Or.inr (Or.inl ⟨rfl, rfl⟩)))))))⟩
    simp [preview_row_fila5, preview_err_codigo, preview_err_nombre,
      preview_err_categoria, preview_err_stock, h0, h1, h2, h3, hgne, hfind,
      hP, hst, hsf]
  rw [hq] at he
  dsimp only at he
  by_cases h7 : stq < 0
  · rw [if_pos h7] at he
    dsimp only at he
    obtain rfl := (Sum.inl.inj he).symm
    have hst : pyTruthy sv = true := by
      by_contra hcontra
      rw [if_neg hcontra] at hq
      obtain rfl := (Option.some.inj hq).symm
      simp at h7
    have hsf : pyInt? sv = some stq := by
      rw [if_pos hst] at hq
      exact hq
    refine ⟨_, ?_, Or.inr (Or.inr (Or.inr (Or.inr (Or.inr (Or.inr
      (Or.inr (Or.inr ⟨rfl, rfl⟩)))))))⟩
    simp [preview_row_fila5, preview_err_codigo, preview_err_nombre,
      preview_err_categoria, preview_err_stock, h0, h1, h2, h3, hgne, hfind,
      hP, hst, hsf, h7]
  · rw [if_neg h7] at he
    dsimp only at he
    cases he

/-- Witness for C8: a row rejected by commit for a missing name gets the same
first reason ("NOMBRE es requerido.") in preview. -/
theorem primer_error_misma_regla_witness :
    ∃ pe, (preview_row [] [("CAT", 1)] [] (fila5 "X1" "" "CAT" "" "")).1.head?
        = some pe ∧
      mismaCategoria "X1" "CAT" "NOMBRE es requerido." pe := by
  have h := primer_error_misma_regla [] [("CAT", 1)] [] 2 "X1" "" "CAT" "" ""
    (by decide) ⟨Marker.num 2, "NOMBRE es requerido."⟩ (by decide)
  exact h

/-! ## C5: idempotence of `aplanar_nombre_columna` -/

/-- Characters stable under every stage of the normalization pipeline. -/
def goodChar (c : Char) : Prop :=
  pyLowerChar c = c ∧ nfkdChar c = [c] ∧ combining c = false ∧
  isSP c = false ∧ isWS c = false

instance goodChar_decidable (c : Char) : Decidable (goodChar c) :=
  inferInstanceAs (Decidable (pyLowerChar c = c ∧ nfkdChar c = [c] ∧
    combining c = false ∧ isSP c = false ∧ isWS c = false))

lemma pyLowerChar_of_none {c : Char}
    (h : lowerPairs.find? (fun p => p.1 = c) = none) : pyLowerChar c = c := by
  unfold pyLowerChar
  rw [h]

lemma nfkdChar_of_none {c : Char}
    (h : decompPairs.find? (fun p => p.1 = c) = none) : nfkdChar c = [c] := by
  unfold nfkdChar
  rw [h]

/-- Every character surviving lowercase + NFKD + combining-filter is stable
under lowercase and NFKD, is not combining, and is whitespace only when it is
the plain space (unless it was the input character itself). -/
lemma deaccent_char_spec (c : Char) :
    ∀ d ∈ (nfkdChar (pyLowerChar c)).filter (fun x => !combining x),
      pyLowerChar d = d ∧ nfkdChar d = [d] ∧ combining d = false ∧
      (isWS d = true → d = ' ' ∨ d = c) := by
  rcases hf : lowerPairs.find? (fun p => p.1 = c) with _ | p
  · have hlc : pyLowerChar c = c := pyLowerChar_of_none hf
    rw [hlc]
    rcases hg : decompPairs.find? (fun p => p.1 = c) with _ | q
    · have hnc : nfkdChar c = [c] := nfkdChar_of_none hg
      rw [hnc]
      intro d hd
      rcases List.mem_filter.mp hd with ⟨hd1, hd2⟩
      rcases List.mem_singleton.mp hd1 with rfl
      exact ⟨hlc, hnc, by simpa using hd2, fun _ => Or.inr rfl⟩
    · have hq1 : q.1 = c := by simpa using List.find?_some hg
      have hqmem := List.mem_of_find?_eq_some hg
      have hnc : nfkdChar c = q.2 := by unfold nfkdChar; rw [hg]
      rw [hnc]
      subst hq1
      have hD2 : ∀ q2 ∈ decompPairs,
          lowerPairs.find? (fun p => p.1 = q2.1) = none →
          ∀ d ∈ q2.2.filter (fun x => !combining x),
            pyLowerChar d = d ∧ nfkdChar d = [d] ∧ combining d = false ∧
            (isWS d = true → d = ' ') := by decide
      intro d hd
      rcases hD2 q hqmem hf d hd with ⟨a, b, c', w⟩
      exact ⟨a, b, c', fun hw => Or.inl (w hw)⟩
  · have hlc : pyLowerChar c = p.2 := by unfold pyLowerChar; rw [hf]
    have hpmem := List.mem_of_find?_eq_some hf
    rw [hlc]
    have hD1 : ∀ p2 ∈ lowerPairs,
        ∀ d ∈ (nfkdChar p2.2).filter (fun x => !combining x),
          pyLowerChar d = d ∧ nfkdChar d = [d] ∧ combining d = false ∧
          isWS d = false := by decide
    intro d hd
    rcases hD1 p hpmem d hd with ⟨a, b, c', w⟩
    exact ⟨a, b, c', fun hw => by rw [w] at hw; cases hw⟩

lemma collapseRuns_cons_neg {p : Char → Bool} {r c0 : Char} {rest : List Char}
    (hp : p c0 = false) (b : Bool) :
    collapseRuns p r b (c0 :: rest) = c0 :: collapseRuns p r false rest := by
  simp [collapseRuns, hp]

lemma collapseRuns_cons_pos_false {p : Char → Bool} {r c0 : Char}
    {rest : List Char} (hp : p c0 = true) :
    collapseRuns p r false (c0 :: rest) = r :: collapseRuns p r true rest := by
  simp [collapseRuns, hp]

lemma collapseRuns_cons_pos_true {p : Char → Bool} {r c0 : Char}
    {rest : List Char} (hp : p c0 = true) :
    collapseRuns p r true (c0 :: rest) = collapseRuns p r true rest := by
  simp [collapseRuns, hp]

lemma collapseRuns_mem (p : Char → Bool) (r : Char) :
    ∀ (l : List Char) (b : Bool), ∀ c ∈ collapseRuns p r b l,
      c = r ∨ (c ∈ l ∧ p c = false)
  | [], b => by intro c hc; simp [collapseRuns] at hc
  | c0 :: rest, b => by
    intro c hc
    rcases hp : p c0 with _ | _
    · rw [collapseRuns_cons_neg hp b] at hc
      rcases List.mem_cons.mp hc with rfl | hc2
      · exact Or.inr ⟨List.mem_cons_self _ _, hp⟩
      · rcases collapseRuns_mem p r rest false c hc2 with h | ⟨h1, h2⟩
        · exact Or.inl h
        · exact Or.inr ⟨List.mem_cons_of_mem _ h1, h2⟩
    · cases b
      · rw [collapseRuns_cons_pos_false hp] at hc
        rcases List.mem_cons.mp hc with rfl | hc2
        · exact Or.inl rfl
        · rcases collapseRuns_mem p r rest true c hc2 with h | ⟨h1, h2⟩
          · exact Or.inl h
          · exact Or.inr ⟨List.mem_cons_of_mem _ h1, h2⟩
      · rw [collapseRuns_cons_pos_true hp] at hc
        rcases collapseRuns_mem p r rest true c hc with h | ⟨h1, h2⟩
        · exact Or.inl h
        · exact Or.inr ⟨List.mem_cons_of_mem _ h1, h2⟩

lemma collapseRuns_id_of_none (p : Char → Bool) (r : Char) :
    ∀ l : List Char, (∀ c ∈ l, p c = false) → collapseRuns p r false l = l
  | [], _ => rfl
  | c :: rest, h => by
    have hp : p c = false := h c (List.mem_cons_self _ _)
    rw [collapseRuns_cons_neg hp false,
      collapseRuns_id_of_none p r rest (fun d hd => h d (List.mem_cons_of_mem _ hd))]

lemma collapseRuns_true_head (p : Char → Bool) (r : Char) :
    ∀ (l : List Char) (d : Char),
      (collapseRuns p r true l).head? = some d → p d = false
  | [], d => by intro h; simp [collapseRuns] at h
  | c :: rest, d => by
    intro h
    rcases hp : p c with _ | _
    · rw [collapseRuns_cons_neg hp true] at h
      simp only [List.head?_cons, Option.some.injEq] at h
      rw [← h]
      exact hp
    · rw [collapseRuns_cons_pos_true hp] at h
      exact collapseRuns_true_head p r rest d h

lemma collapseRuns_chain (p : Char → Bool) (r : Char) :
    ∀ (l : List Char) (b : Bool),
      List.Chain' (fun a b2 => ¬(p a = true ∧ p b2 = true)) (collapseRuns p r b l)
  | [], b => by simp [collapseRuns]
  | c :: rest, b => by
    rcases hp : p c with _ | _
    · rw [collapseRuns_cons_neg hp b, List.chain'_cons']
      refine ⟨fun y hy hcontra => ?_, collapseRuns_chain p r rest false⟩
      rw [hp] at hcontra
      exact absurd hcontra.1 (by simp)
    · cases b
      · rw [collapseRuns_cons_pos_false hp, List.chain'_cons']
        refine ⟨fun y hy hcontra => ?_, collapseRuns_chain p r rest true⟩
        have := collapseRuns_true_head p r rest y (Option.mem_def.mp hy)
        rw [this] at hcontra
        exact absurd hcontra.2 (by simp)
      · rw [collapseRuns_cons_pos_true hp]
        exact collapseRuns_chain p r rest true

lemma collapseRuns_id_chain (p : Char → Bool) (r : Char)
    (hr : ∀ c, p c = true → c = r) :
    ∀ l : List Char,
      List.Chain' (fun a b2 => ¬(p a = true ∧ p b2 = true)) l →
      collapseRuns p r false l = l
  | [], _ => rfl
  | c :: rest, h => by
    rcases hp : p c with _ | _
    · rw [collapseRuns_cons_neg hp false,
        collapseRuns_id_chain p r hr rest h.tail]
    · cases rest with
      | nil =>
        rw [collapseRuns_cons_pos_false hp, ← hr c hp]
        rfl
      | cons d rest2 =>
        have hRcd := (List.chain'_cons.mp h).1
        have hpd : p d = false := by
          rcases hq : p d with _ | _
          · rfl
          · exact absurd ⟨hp, hq⟩ hRcd
        have hrest : collapseRuns p r false (d :: rest2) = d :: rest2 :=
          collapseRuns_id_chain p r hr (d :: rest2) (List.chain'_cons.mp h).2
        rw [collapseRuns_cons_neg hpd false] at hrest
        have hrest2 : collapseRuns p r false rest2 = rest2 := by
          injection hrest
        rw [collapseRuns_cons_pos_false hp,
          collapseRuns_cons_neg hpd, hrest2, ← hr c hp]

lemma mem_stripBoth {p : Char → Bool} {l : List Char} {c : Char}
    (h : c ∈ stripBoth p l) : c ∈ l := by
  unfold stripBoth stripEnd at h
  rw [List.mem_reverse] at h
  have h2 := (List.dropWhile_sublist p).subset h
  rw [List.mem_reverse] at h2
  exact (List.dropWhile_sublist p).subset h2

lemma stripBoth_prefix_dropWhile (p : Char → Bool) (l : List Char) :
    stripBoth p l <+: l.dropWhile p := by
  unfold stripBoth stripEnd
  have h1 : ((l.dropWhile p).reverse.dropWhile p).reverse <+:
      ((l.dropWhile p).reverse).reverse :=
    List.reverse_prefix.mpr (List.dropWhile_suffix p)
  rwa [List.reverse_reverse] at h1

lemma stripBoth_infijo (p : Char → Bool) (l : List Char) :
    stripBoth p l <:+: l := by
  rcases stripBoth_prefix_dropWhile p l with ⟨t1, ht1⟩
  rcases List.dropWhile_suffix (l := l) p with ⟨t2, ht2⟩
  refine ⟨t2, t1, ?_⟩
  rw [List.append_assoc, ht1, ht2]

lemma head?_stripBoth {p : Char → Bool} {l : List Char} {d : Char}
    (h : (stripBoth p l).head? = some d) : p d = false := by
  rcases stripBoth_prefix_dropWhile p l with ⟨t, ht⟩
  rcases hsB : stripBoth p l with _ | ⟨d0, rest⟩
  · rw [hsB] at h
    cases h
  · rw [hsB] at h
    simp only [List.head?_cons, Option.some.injEq] at h
    rw [← h]
    rw [hsB] at ht
    have hhd : (l.dropWhile p).head? = some d0 := by
      rw [← ht]
      rfl
    have h2 := List.head?_dropWhile_not p l
    rw [hhd] at h2
    simpa using h2

lemma getLast?_stripBoth {p : Char → Bool} {l : List Char} {d : Char}
    (h : (stripBoth p l).getLast? = some d) : p d = false := by
  unfold stripBoth stripEnd at h
  rw [List.getLast?_reverse] at h
  have h2 := List.head?_dropWhile_not p (l.dropWhile p).reverse
  rw [h] at h2
  simpa using h2

lemma stripBoth_eq_self {p : Char → Bool} {l : List Char}
    (h1 : ∀ d, l.head? = some d → p d = false)
    (h2 : ∀ d, l.getLast? = some d → p d = false) : stripBoth p l = l := by
  unfold stripBoth stripEnd
  have hd : l.dropWhile p = l := by
    cases hl : l with
    | nil => simp
    | cons a t =>
      rw [List.dropWhile_cons_of_neg]
      rw [h1 a (by rw [hl]; rfl)]
      simp
  rw [hd]
  have hr : l.reverse.dropWhile p = l.reverse := by
    cases hl : l.reverse with
    | nil => simp
    | cons a t =>
      have ha : l.getLast? = some a := by
        rw [← List.head?_reverse, hl]
        rfl
      rw [List.dropWhile_cons_of_neg]
      rw [h2 a ha]
      simp
  rw [hr, List.reverse_reverse]

lemma head?_mem {l : List Char} {d : Char} (h : l.head? = some d) : d ∈ l := by
  cases l with
  | nil => cases h
  | cons a t =>
    simp only [List.head?_cons, Option.some.injEq] at h
    subst h
    exact List.mem_cons_self _ _

lemma getLast?_mem {l : List Char} {d : Char} (h : l.getLast? = some d) : d ∈ l := by
  rw [← List.head?_reverse] at h
  rw [← List.mem_reverse]
  exact head?_mem h

lemma stripBoth_eq_self_of_all {p : Char → Bool} {l : List Char}
    (h : ∀ c ∈ l, p c = false) : stripBoth p l = l :=
  stripBoth_eq_self (fun d hd => h d (head?_mem hd))
    (fun d hd => h d (getLast?_mem hd))

lemma map_id_of (f : Char → Char) :
    ∀ l : List Char, (∀ c ∈ l, f c = c) → l.map f = l
  | [], _ => rfl
  | c :: rest, h => by
    rw [List.map_cons, h c (List.mem_cons_self _ _),
      map_id_of f rest (fun d hd => h d (List.mem_cons_of_mem _ hd))]

lemma flatMap_id_of (f : Char → List Char) :
    ∀ l : List Char, (∀ c ∈ l, f c = [c]) → l.flatMap f = l
  | [], _ => rfl
  | c :: rest, h => by
    rw [List.flatMap_cons, h c (List.mem_cons_self _ _),
      flatMap_id_of f rest (fun d hd => h d (List.mem_cons_of_mem _ hd))]
    rfl

/-- Every character of a normalized name is stable under the whole pipeline
(when the input's only whitespace is the plain space). -/
lemma aplanar_chars {l : List Char}
    (hl : ∀ c ∈ l, isWS c = true → c = ' ') :
    ∀ d ∈ aplanar_nombre_columna l, goodChar d := by
  intro d hd
  unfold aplanar_nombre_columna at hd
  dsimp only at hd
  have hd5 := mem_stripBoth hd
  rcases collapseRuns_mem isUnd '_' _ false d hd5 with rfl | ⟨hd4, hund⟩
  · exact (by decide : goodChar '_')
  rcases collapseRuns_mem isSP '_' _ false d hd4 with rfl | ⟨hd3, hsp⟩
  · exact (by decide : goodChar '_')
  rcases List.mem_filter.mp hd3 with ⟨hd2, hcomb⟩
  rcases List.mem_flatMap.mp hd2 with ⟨c1, hc1, hdn⟩
  rcases List.mem_map.mp hc1 with ⟨c0, hc0, rfl⟩
  have hspec := deaccent_char_spec c0 d (List.mem_filter.mpr ⟨hdn, hcomb⟩)
  refine ⟨hspec.1, hspec.2.1, hspec.2.2.1, hsp, ?_⟩
  rcases hw : isWS d with _ | _
  · rfl
  · exfalso
    rcases hspec.2.2.2 hw with rfl | rfl
    · rw [show isSP ' ' = true from rfl] at hsp
      cases hsp
    · have : d = ' ' := hl d (mem_stripBoth hc0) hw
      rw [this] at hsp
      rw [show isSP ' ' = true from rfl] at hsp
      cases hsp

/-- A normalized name is fixed by the pipeline. -/
lemma aplanar_eq_self {m : List Char} (hgood : ∀ c ∈ m, goodChar c)
    (hchain : List.Chain'
      (fun a b => ¬(isUnd a = true ∧ isUnd b = true)) m)
    (hhead : ∀ d, m.head? = some d → isUnd d = false)
    (hlast : ∀ d, m.getLast? = some d → isUnd d = false) :
    aplanar_nombre_columna m = m := by
  unfold aplanar_nombre_columna
  dsimp only
  rw [stripBoth_eq_self_of_all (fun c hc => (hgood c hc).2.2.2.2)]
  rw [map_id_of pyLowerChar m (fun c hc => (hgood c hc).1)]
  rw [flatMap_id_of nfkdChar m (fun c hc => (hgood c hc).2.1)]
  rw [List.filter_eq_self.mpr (fun c hc => by rw [(hgood c hc).2.2.1]; rfl)]
  rw [collapseRuns_id_of_none isSP '_' m (fun c hc => (hgood c hc).2.2.2.1)]
  rw [collapseRuns_id_chain isUnd '_' (fun c hc => of_decide_eq_true hc) m hchain]
  exact stripBoth_eq_self hhead hlast

/-- C5 counterexample: the normalization is NOT idempotent on every header
string: for `"-\ta"` one pass yields `"\ta"` (the hyphen run is collapsed to
an underscore which is then stripped, exposing a tab), and a second pass
strips the tab, yielding `"a"`. -/
theorem aplanar_cex :
    aplanar_nombre_columna (aplanar_nombre_columna ['-', '\t', 'a']) ≠
      aplanar_nombre_columna ['-', '\t', 'a'] := by
  decide

/-- C5 (amended): `aplanar_nombre_columna` is idempotent on every header
string whose whitespace characters are all the plain space `' '` (i.e. no
tabs, newlines or other exotic whitespace). -/
theorem aplanar_idempotente (l : List Char)
    (hl : ∀ c ∈ l, isWS c = true → c = ' ') :
    aplanar_nombre_columna (aplanar_nombre_columna l) =
      aplanar_nombre_columna l := by
  apply aplanar_eq_self (aplanar_chars hl)
  · show List.Chain' _ (aplanar_nombre_columna l)
    unfold aplanar_nombre_columna
    dsimp only
    exact List.Chain'.infix (collapseRuns_chain isUnd '_' _ false)
      (stripBoth_infijo isUnd _)
  · intro d hd
    unfold aplanar_nombre_columna at hd
    dsimp only at hd
    exact head?_stripBoth hd
  · intro d hd
    unfold aplanar_nombre_columna at hd
    dsimp only at hd
    exact getLast?_stripBoth hd

/-- Witness for C5 at a concrete accented, space-separated header. -/
theorem aplanar_idempotente_witness :
    (∀ c ∈ "Número de Documento".toList, isWS c = true → c = ' ') ∧
    aplanar_nombre_columna (aplanar_nombre_columna "Número de Documento".toList)
      = aplanar_nombre_columna "Número de Documento".toList :=
  ⟨by decide, aplanar_idempotente _ (by decide)⟩

end CargaMasiva
